import Mathlib

/-!
Verification development for the Palo Alto add-on data-collection core.

The definitions below are a shallow embedding of the two source files
`api_handlers.py` and `palo_alto_input_helper.py`: pure Python functions
become Lean functions over an explicit model of parsed XML trees
(`Element`), Python dicts become insertion-ordered association lists, and
the Python standard-library primitives the source leans on (`str.strip`,
`str.lower`, `int(...)`, `float(...)`, `xml.etree.ElementTree.fromstring`,
`json.dumps`) are modelled as executable Lean functions over ASCII text.
-/

set_option maxHeartbeats 1000000
set_option linter.unreachableTactic false
set_option linter.unusedTactic false
set_option linter.unusedVariables false

/-- Python whitespace characters recognised by `str.strip()` (ASCII scope). -/
def isPyWs (c : Char) : Bool :=
  c = ' ' || c = '\t' || c = '\n' || c = '\r' || c = '\x0b' || c = '\x0c'

/-- Model of Python `str.strip()`: drop leading and trailing whitespace. -/
def pyStrip (s : String) : String :=
  String.mk (((s.data.dropWhile isPyWs).reverse.dropWhile isPyWs).reverse)

/-- Model of Python `str.lower()` (ASCII scope). -/
def pyLower (s : String) : String :=
  String.mk (s.data.map Char.toLower)

/-- Model of Python `str.capitalize()`: first character upper-cased, the rest
lower-cased (ASCII scope). -/
def pyCapitalize (s : String) : String :=
  match s.data with
  | [] => ""
  | c :: cs => String.mk (Char.toUpper c :: cs.map Char.toLower)

/-- Numeric value of a decimal digit character. -/
def digitVal (c : Char) : Nat := c.toNat - 48

/-- Digit-run parser shared by the `int(...)` model: consumes the whole
remaining input, allowing single underscores between digits as Python does.
The boolean flag records whether the previous character was a digit. -/
def pyDigitsAux : List Char → Nat → Bool → Option Nat
  | [], acc, seen => if seen then some acc else none
  | c :: rest, acc, seen =>
    if c.isDigit then pyDigitsAux rest (acc * 10 + digitVal c) true
    else if c = '_' then
      if seen then
        match rest with
        | d :: rest2 =>
          if d.isDigit then pyDigitsAux rest2 (acc * 10 + digitVal d) true else none
        | [] => none
      else none
    else none

/-- Core of the `int(...)` model: optional sign, then digits. -/
def pyIntCore (cs : List Char) : Option Int :=
  match cs with
  | '+' :: rest =>
    if rest.isEmpty then none else (pyDigitsAux rest 0 false).map Int.ofNat
  | '-' :: rest =>
    if rest.isEmpty then none else (pyDigitsAux rest 0 false).map (fun n => -(n : Int))
  | _ => (pyDigitsAux cs 0 false).map Int.ofNat

/-- Model of Python `int(str)` in base 10: strips whitespace, accepts an
optional sign and a digit run with single internal underscores. -/
def pyInt (s : String) : Option Int := pyIntCore (pyStrip s).data

/-- Result of Python `float(str)`: a finite value (modelled exactly as a
rational for the decimal grammar Python accepts), an infinity, or a NaN. -/
inductive PyFloat where
  | finite (q : ℚ)
  | inf (neg : Bool)
  | nan
deriving DecidableEq, Repr

/-- Greedy digit-part parser for the `float(...)` model.  Accumulates a digit
run (with single internal underscores), returning the value, the number of
digits consumed and the unconsumed remainder. -/
def floatDigitsGo : List Char → Nat → Nat → Nat × Nat × List Char
  | [], acc, n => (acc, n, [])
  | '_' :: rest, acc, n =>
    match rest with
    | d :: rest2 =>
      if d.isDigit then floatDigitsGo rest2 (acc * 10 + digitVal d) (n + 1)
      else (acc, n, '_' :: rest)
    | [] => (acc, n, ['_'])
  | c :: rest, acc, n =>
    if c.isDigit then floatDigitsGo rest (acc * 10 + digitVal c) (n + 1)
    else (acc, n, c :: rest)

/-- Digit part of the `float(...)` grammar: at least one leading digit. -/
def floatDigits (cs : List Char) : Option (Nat × Nat × List Char) :=
  match cs with
  | c :: rest => if c.isDigit then some (floatDigitsGo rest (digitVal c) 1) else none
  | [] => none

/-- Exponent suffix of the `float(...)` grammar; `none` input chars means
exponent 0.  The whole remainder must be consumed. -/
def parseFloatExp (cs : List Char) : Option Int :=
  match cs with
  | [] => some 0
  | e :: rest =>
    if e = 'e' || e = 'E' then
      match rest with
      | '+' :: r2 =>
        match floatDigits r2 with
        | some (v, _, r3) => if r3.isEmpty then some (v : Int) else none
        | none => none
      | '-' :: r2 =>
        match floatDigits r2 with
        | some (v, _, r3) => if r3.isEmpty then some (-(v : Int)) else none
        | none => none
      | _ =>
        match floatDigits rest with
        | some (v, _, r3) => if r3.isEmpty then some (v : Int) else none
        | none => none
    else none

/-- Exact rational value of a parsed decimal float literal. -/
def floatVal (ip fp fn : Nat) (ex : Int) : ℚ :=
  ((ip : ℚ) + (fp : ℚ) / (10 : ℚ) ^ fn) * (10 : ℚ) ^ ex

/-- Magnitude part of the `float(...)` grammar:
`digits [. digits] [exp]` or `. digits [exp]`. -/
def pyFloatMag (cs : List Char) : Option ℚ :=
  match floatDigits cs with
  | some (ip, _, rest) =>
    match rest with
    | '.' :: r2 =>
      match floatDigits r2 with
      | some (fp, fn, r3) => (parseFloatExp r3).map (floatVal ip fp fn)
      | none => (parseFloatExp r2).map (floatVal ip 0 0)
    | _ => (parseFloatExp rest).map (floatVal ip 0 0)
  | none =>
    match cs with
    | '.' :: r2 =>
      match floatDigits r2 with
      | some (fp, fn, r3) => (parseFloatExp r3).map (floatVal 0 fp fn)
      | none => none
    | _ => none

/-- Sign/special-value wrapper of the `float(...)` model. -/
def pyFloatCore (cs : List Char) : Option PyFloat :=
  let signed : Bool × List Char :=
    match cs with
    | '+' :: r => (false, r)
    | '-' :: r => (true, r)
    | _ => (false, cs)
  let low := String.mk (signed.2.map Char.toLower)
  if low = "inf" || low = "infinity" then some (PyFloat.inf signed.1)
  else if low = "nan" then some PyFloat.nan
  else (pyFloatMag signed.2).map (fun q => PyFloat.finite (if signed.1 then -q else q))

/-- Model of Python `float(str)`: strips whitespace, then parses a signed
decimal literal, infinity or NaN. -/
def pyFloat (s : String) : Option PyFloat := pyFloatCore (pyStrip s).data

/-- JSON-like values produced by the converters: Python `None`, `int`,
`float`, `str`, `list` and (insertion-ordered) `dict`. -/
inductive JVal where
  | null
  | int (n : Int)
  | float (f : PyFloat)
  | str (s : String)
  | arr (xs : List JVal)
  | obj (fields : List (String × JVal))

/-- First-match lookup in an insertion-ordered dict. -/
def dictLookup : List (String × JVal) → String → Option JVal
  | [], _ => none
  | (k, v) :: rest, key => if k = key then some v else dictLookup rest key

/-- Python dict assignment `d[key] = v`: replace in place if the key exists,
otherwise append at the end. -/
def dictInsert : List (String × JVal) → String → JVal → List (String × JVal)
  | [], key, v => [(key, v)]
  | (k, w) :: rest, key, v =>
    if k = key then (k, v) :: rest else (k, w) :: dictInsert rest key v

/-- Python `d.update(upd)`: assign every entry of `upd` into `d` in order. -/
def dictUpdate (d upd : List (String × JVal)) : List (String × JVal) :=
  upd.foldl (fun acc kv => dictInsert acc kv.1 kv.2) d

/-- Keys of a dict, in order. -/
def dictKeys (d : List (String × JVal)) : List String := d.map Prod.fst

/-- A parsed XML element, as produced by `xml.etree.ElementTree.fromstring`:
tag name, attribute dict, text before the first child (`none` when absent),
and child elements in document order.  Tail text is never consulted by the
source, so it is not modelled. -/
inductive Element where
  | mk (tag : String) (attrib : List (String × String)) (text : Option String)
      (children : List Element)

def Element.tag : Element → String
  | .mk t _ _ _ => t

def Element.attrib : Element → List (String × String)
  | .mk _ a _ _ => a

def Element.text : Element → Option String
  | .mk _ _ tx _ => tx

def Element.children : Element → List Element
  | .mk _ _ _ cs => cs

/-- Model of `element.attrib.get(key)`. -/
def attribGet (e : Element) (k : String) : Option String :=
  (e.attrib.find? (fun kv => kv.1 == k)).map Prod.snd

/-- First child of `e` carrying the given tag (ElementTree child path). -/
def childNamed (e : Element) (t : String) : Option Element :=
  e.children.find? (fun c => c.tag == t)

/-- Model of `element.findtext(tag, default)` for a plain child-tag path:
text of the first matching child (an element without text yields `""`),
or the default when no child matches. -/
def findtextD (e : Element) (t dflt : String) : String :=
  match childNamed e t with
  | some c => c.text.getD ""
  | none => dflt

/-- Size fact used by the termination arguments of the tree recursions. -/
def Element.sizeOf_children_lt (e : Element) : sizeOf e.children < sizeOf e := by
  cases e with
  | mk t a tx cs =>
    simp only [Element.children, Element.mk.sizeOf_spec]
    omega

/-- Model of `element.iter(tag)` over a forest: every element of the forest
whose tag matches, together with its matching descendants, in document
order. -/
def iterTagL : List Element → String → List Element
  | [], _ => []
  | c :: cs, t =>
    ((if c.tag = t then [c] else []) ++ iterTagL c.children t) ++ iterTagL cs t
termination_by l _ => sizeOf l
decreasing_by
  all_goals simp_wf
  all_goals first
    | (have h := Element.sizeOf_children_lt c; omega)
    | (have h := Element.sizeOf_children_lt e; omega)
    | omega

/-- Model of `element.iter(tag)` on an element: the element itself (if its
tag matches) followed by all matching descendants, in document order. -/
def iterTag (e : Element) (t : String) : List Element :=
  (if e.tag = t then [e] else []) ++ iterTagL e.children t

/-- All strict descendants of a forest, in document order. -/
def descAllL : List Element → List Element
  | [] => []
  | c :: cs => c :: (descAllL c.children ++ descAllL cs)
termination_by l => sizeOf l
decreasing_by
  all_goals simp_wf
  all_goals first
    | (have h := Element.sizeOf_children_lt c; omega)
    | (have h := Element.sizeOf_children_lt e; omega)
    | omega

/-- Model of `root.findtext(".//job/status")`: the text of the first
`status` child of a strict-descendant `job` element (in document order),
`""` standing in for absent text, `none` when there is no match. -/
def findtextJobStatus (r : Element) : Option String :=
  let jobs := (descAllL r.children).filter (fun e => e.tag == "job")
  let statuses := (jobs.map (fun j => j.children.filter (fun c => c.tag == "status"))).flatten
  match statuses with
  | st :: _ => some (st.text.getD "")
  | [] => none

/-- Type coercion applied to the trimmed text of a leaf element in
`element_to_dict`: `int(...)`, else `float(...)`, else the raw string. -/
def coerceText (t : String) : JVal :=
  match pyInt t with
  | some n => JVal.int n
  | none =>
    match pyFloat t with
    | some f => JVal.float f
    | none => JVal.str t

/-- The attribute projection of `element_to_dict`: each attribute `k = v`
becomes an entry `"@" ++ k ↦ v`. -/
def attrNode (e : Element) : List (String × JVal) :=
  e.attrib.foldl (fun d kv => dictInsert d ("@" ++ kv.1) (JVal.str kv.2)) []

/-- The stored child value after the duplicate-tag handling of
`element_to_dict`: a fresh key stores the value itself, a second occurrence
promotes the existing scalar to a one-element list before appending. -/
def jAppend : Option JVal → JVal → JVal
  | none, v => v
  | some (JVal.arr xs), v => JVal.arr (xs ++ [v])
  | some old, v => JVal.arr [old, v]

/-- One iteration of the child loop of `element_to_dict`. -/
def addChild (d : List (String × JVal)) (t : String) (v : JVal) : List (String × JVal) :=
  dictInsert d t (jAppend (dictLookup d t) v)

mutual

/-- Embedding of `element_to_dict` (palo_alto_input_helper.py, xml_to_json):
attributes under `@`-prefixed keys, children under their tags with repeated
tags promoted to lists, leaf text coerced int → float → string, text next to
structure kept under `"#text"`, and a fully empty element mapped to `None`. -/
def element_to_dict (e : Element) : JVal :=
  let node1 := dictUpdate (attrNode e) (childFold e.children [])
  match e.text with
  | some t =>
    if pyStrip t ≠ "" then
      if node1.isEmpty then coerceText (pyStrip t)
      else JVal.obj (dictInsert node1 "#text" (JVal.str (pyStrip t)))
    else if node1.isEmpty then JVal.null else JVal.obj node1
  | none => if node1.isEmpty then JVal.null else JVal.obj node1
termination_by sizeOf e
decreasing_by
  all_goals simp_wf
  all_goals first
    | (have h := Element.sizeOf_children_lt c; omega)
    | (have h := Element.sizeOf_children_lt e; omega)
    | omega

/-- The child loop of `element_to_dict`, building `child_dict`. -/
def childFold : List Element → List (String × JVal) → List (String × JVal)
  | [], d => d
  | c :: cs, d => childFold cs (addChild d c.tag (element_to_dict c))
termination_by l _ => sizeOf l
decreasing_by
  all_goals simp_wf
  all_goals first
    | (have h := Element.sizeOf_children_lt c; omega)
    | (have h := Element.sizeOf_children_lt e; omega)
    | omega

end

mutual

/-- Embedding of `extract_metrics` (palo_alto_input_helper.py,
xml_to_metrics): starting from an element, walk its children. -/
def extract_metrics (e : Element) (pp : String) (acc : List (String × JVal)) :
    List (String × JVal) :=
  metricChildren e.children pp acc
termination_by sizeOf e
decreasing_by
  all_goals simp_wf
  all_goals first
    | (have h := Element.sizeOf_children_lt c; omega)
    | (have h := Element.sizeOf_children_lt e; omega)
    | omega

/-- The child loop of `extract_metrics`: build the dotted path, record the
value when the trimmed text parses as a float, and recurse into children. -/
def metricChildren : List Element → String → List (String × JVal) → List (String × JVal)
  | [], _, acc => acc
  | c :: cs, pp, acc =>
    let p := if pp = "" then c.tag else pp ++ "." ++ c.tag
    let acc1 :=
      match c.text with
      | some t =>
        if pyStrip t ≠ "" then
          match pyFloat (pyStrip t) with
          | some v => dictInsert acc ("metric_name:" ++ p) (JVal.float v)
          | none => acc
        else acc
      | none => acc
    let acc2 := if c.children.length > 0 then extract_metrics c p acc1 else acc1
    metricChildren cs pp acc2
termination_by l _ _ => sizeOf l
decreasing_by
  all_goals simp_wf
  all_goals first
    | (have h := Element.sizeOf_children_lt c; omega)
    | (have h := Element.sizeOf_children_lt e; omega)
    | omega

end

/-- All strict descendants of a forest paired with their dotted paths, the
way `extract_metrics` builds them (root tag excluded). -/
def descWithPaths (pp : String) : List Element → List (String × Element)
  | [] => []
  | c :: cs =>
    let p := if pp = "" then c.tag else pp ++ "." ++ c.tag
    (p, c) :: (descWithPaths p c.children ++ descWithPaths pp cs)
termination_by l => sizeOf l
decreasing_by
  all_goals simp_wf
  all_goals first
    | (have h := Element.sizeOf_children_lt c; omega)
    | (have h := Element.sizeOf_children_lt e; omega)
    | omega

/-- Whether an element's trimmed text parses as a Python float (the
condition under which `extract_metrics` records a metric for it). -/
def numericText (e : Element) : Bool :=
  match e.text with
  | some t => if pyStrip t = "" then false else (pyFloat (pyStrip t)).isSome
  | none => false

/-- Single-quote character (written by code point to keep literals simple). -/
def squote : Char := Char.ofNat 39

/-- XML name start characters (model scope: ASCII letters, `_`, `:`). -/
def xmlNameStart (c : Char) : Bool := c.isAlpha || c = '_' || c = ':'

/-- XML name continuation characters. -/
def xmlNameChar (c : Char) : Bool :=
  c.isAlphanum || c = '_' || c = ':' || c = '-' || c = '.'

/-- Take an XML name from the front of the input. -/
def takeXmlName (cs : List Char) : Option (String × List Char) :=
  match cs with
  | c :: rest =>
    if xmlNameStart c then
      some (String.mk (c :: rest.takeWhile xmlNameChar), rest.dropWhile xmlNameChar)
    else none
  | [] => none

/-- Hexadecimal digit test. -/
def isHexDig (c : Char) : Bool :=
  c.isDigit || ('a' ≤ c && c ≤ 'f') || ('A' ≤ c && c ≤ 'F')

/-- Decode a character reference body `&#...;` (decimal or hex). -/
def decodeCharRef (cs : List Char) : Option (Char × List Char) :=
  let core : List Char → Nat → Option (Char × List Char) := fun ds base =>
    let digs := ds.takeWhile (fun c => c.isDigit || (base = 16 && isHexDig c))
    let rest := ds.dropWhile (fun c => c.isDigit || (base = 16 && isHexDig c))
    if digs.isEmpty then none
    else
      match rest with
      | ';' :: r2 =>
        let n := digs.foldl (fun acc c =>
          acc * base + (if c.isDigit then digitVal c else (c.toLower.toNat - 87))) 0
        if h : n.isValidChar then some (Char.ofNat n, r2) else none
      | _ => none
  match cs with
  | 'x' :: ds => core ds 16
  | ds => core ds 10

/-- Decode an entity reference following `&`: the five predefined XML
entities or a character reference; anything else is undefined. -/
def decodeEntity (cs : List Char) : Option (Char × List Char) :=
  match cs with
  | 'a' :: 'm' :: 'p' :: ';' :: r => some ('&', r)
  | 'l' :: 't' :: ';' :: r => some ('<', r)
  | 'g' :: 't' :: ';' :: r => some ('>', r)
  | 'q' :: 'u' :: 'o' :: 't' :: ';' :: r => some ('"', r)
  | 'a' :: 'p' :: 'o' :: 's' :: ';' :: r => some (squote, r)
  | '#' :: r => decodeCharRef r
  | _ => none

/-- Skip to the end of a comment (`-->`). -/
def dropComment : Nat → List Char → Option (List Char)
  | 0, _ => none
  | _ + 1, '-' :: '-' :: '>' :: r => some r
  | f + 1, _ :: r => dropComment f r
  | _ + 1, [] => none

/-- Skip to the end of a processing instruction (`?>`). -/
def dropPi : Nat → List Char → Option (List Char)
  | 0, _ => none
  | _ + 1, '?' :: '>' :: r => some r
  | f + 1, _ :: r => dropPi f r
  | _ + 1, [] => none

/-- Skip to the end of a declaration (`>`). -/
def dropGt : Nat → List Char → Option (List Char)
  | 0, _ => none
  | _ + 1, '>' :: r => some r
  | f + 1, _ :: r => dropGt f r
  | _ + 1, [] => none

/-- Skip whitespace, comments, processing instructions and declarations
appearing outside the document element. -/
def skipProlog : Nat → List Char → List Char
  | 0, cs => cs
  | f + 1, cs =>
    let cs1 := cs.dropWhile isPyWs
    match cs1 with
    | '<' :: '?' :: r =>
      match dropPi f r with
      | some r2 => skipProlog f r2
      | none => cs1
    | '<' :: '!' :: '-' :: '-' :: r =>
      match dropComment f r with
      | some r2 => skipProlog f r2
      | none => cs1
    | '<' :: '!' :: r =>
      match dropGt f r with
      | some r2 => skipProlog f r2
      | none => cs1
    | _ => cs1

/-- Text-run parser: accumulate character data up to the next `<` (or end of
input), decoding entity references. -/
def parseTextF : Nat → List Char → List Char → Except String (String × List Char)
  | 0, _, _ => Except.error "internal limit"
  | f + 1, cs, acc =>
    match cs with
    | [] => Except.ok (String.mk acc.reverse, [])
    | '<' :: _ => Except.ok (String.mk acc.reverse, cs)
    | '&' :: rest =>
      match decodeEntity rest with
      | some (c, r2) => parseTextF f r2 (c :: acc)
      | none => Except.error "undefined entity"
    | c :: rest => parseTextF f rest (c :: acc)

/-- Quoted attribute-value parser (quote character given), decoding entity
references. -/
def parseQuotedF : Nat → Char → List Char → List Char → Except String (String × List Char)
  | 0, _, _, _ => Except.error "internal limit"
  | f + 1, q, cs, acc =>
    match cs with
    | [] => Except.error "unclosed token"
    | c :: rest =>
      if c = q then Except.ok (String.mk acc.reverse, rest)
      else if c = '&' then
        match decodeEntity rest with
        | some (d, r2) => parseQuotedF f q r2 (d :: acc)
        | none => Except.error "undefined entity"
      else if c = '<' then Except.error "not well-formed (invalid token)"
      else parseQuotedF f q rest (c :: acc)

/-- Attribute-list parser: returns the attributes and the remainder, which
starts with `/` or `>` on success. -/
def parseAttrsF : Nat → List Char → List (String × String) →
    Except String (List (String × String) × List Char)
  | 0, _, _ => Except.error "internal limit"
  | f + 1, cs, acc =>
    let cs1 := cs.dropWhile isPyWs
    match cs1 with
    | '/' :: _ => Except.ok (acc.reverse, cs1)
    | '>' :: _ => Except.ok (acc.reverse, cs1)
    | _ =>
      match takeXmlName cs1 with
      | none => Except.error "not well-formed (invalid token)"
      | some (an, r1) =>
        match r1.dropWhile isPyWs with
        | '=' :: r2 =>
          match r2.dropWhile isPyWs with
          | q :: r3 =>
            if q = '"' || q = squote then
              match parseQuotedF f q r3 [] with
              | Except.ok (v, r4) => parseAttrsF f r4 ((an, v) :: acc)
              | Except.error e => Except.error e
            else Except.error "not well-formed (invalid token)"
          | [] => Except.error "unclosed token"
        | _ => Except.error "not well-formed (invalid token)"

mutual

/-- Element parser for the `ET.fromstring` model: expects `<`, a name, an
attribute list, then either `/>` or `>` content `</name>`. -/
def parseElementF : Nat → List Char → Except String (Element × List Char)
  | 0, _ => Except.error "internal limit"
  | f + 1, cs =>
    match cs with
    | '<' :: rest =>
      (match takeXmlName rest with
      | none => Except.error "syntax error"
      | some (nm, r1) =>
        match parseAttrsF f r1 [] with
        | Except.error e => Except.error e
        | Except.ok (attrs, r2) =>
          match r2 with
          | '/' :: '>' :: r3 => Except.ok (Element.mk nm attrs none [], r3)
          | '>' :: r3 =>
            (match parseContentF f nm r3 "" [] with
            | Except.ok (txt, kids, r4) => Except.ok (Element.mk nm attrs txt kids, r4)
            | Except.error e => Except.error e)
          | _ => Except.error "not well-formed (invalid token)")
    | _ => Except.error "syntax error"

/-- Content parser: text runs (kept as the element's text only before the
first child, discarded as tail text afterwards), child elements and
comments, terminated by the matching close tag. -/
def parseContentF : Nat → String → List Char → String → List Element →
    Except String (Option String × List Element × List Char)
  | 0, _, _, _, _ => Except.error "internal limit"
  | f + 1, tag, cs, tacc, kids =>
    match parseTextF f cs [] with
    | Except.error e => Except.error e
    | Except.ok (t, r) =>
      let tacc2 := if kids.isEmpty then tacc ++ t else tacc
      match r with
      | '<' :: '/' :: r2 =>
        (match takeXmlName r2 with
        | some (nm2, r3) =>
          if nm2 = tag then
            match r3.dropWhile isPyWs with
            | '>' :: r4 =>
              Except.ok ((if tacc2 = "" then none else some tacc2), kids.reverse, r4)
            | _ => Except.error "not well-formed (invalid token)"
          else Except.error "mismatched tag"
        | none => Except.error "not well-formed (invalid token)")
      | '<' :: '!' :: '-' :: '-' :: r2 =>
        (match dropComment f r2 with
        | some r3 => parseContentF f tag r3 tacc2 kids
        | none => Except.error "unclosed token")
      | '<' :: _ =>
        (match parseElementF f r with
        | Except.ok (child, r2) => parseContentF f tag r2 tacc2 (child :: kids)
        | Except.error e => Except.error e)
      | _ => Except.error "no element found"

end

/-- Model of `xml.etree.ElementTree.fromstring` (Python standard library,
external to src/): parse the text into an `Element` tree or produce a parse
error, per the behaviour the spec relies on ("Parse failure yields ...").
The scope of the model is ASCII documents with tags, attributes, text,
comments, processing instructions and the predefined entities; notably any
input whose first non-whitespace character is not `<` is a parse error. -/
def ET_fromstring (s : String) : Except String Element :=
  let fuel := s.length * 4 + 64
  let cs := skipProlog fuel s.data
  match cs with
  | [] => Except.error "no element found"
  | _ =>
    match parseElementF fuel cs with
    | Except.error e => Except.error e
    | Except.ok (root, rest) =>
      let rest2 := skipProlog fuel rest
      if rest2.isEmpty then Except.ok root
      else Except.error "junk after document element"

/-- Embedding of `xml_to_json` (palo_alto_input_helper.py): endpoint and
host metadata, then either the converted tree under `"data"` or, on a parse
failure, an `"error"` entry — the exception never escapes. -/
def xml_to_json (xml_text endpoint host : String) : List (String × JVal) :=
  let base := [("endpoint", JVal.str endpoint), ("host", JVal.str host)]
  match ET_fromstring xml_text with
  | Except.ok root => base ++ [("data", JVal.obj [(root.tag, element_to_dict root)])]
  | Except.error e => base ++ [("error", JVal.str ("XML parsing failed: " ++ e))]

/-- Tree-level core of `xml_to_metrics`: the metric walk applied to a
successfully parsed document. -/
def xml_to_metrics_tree (root : Element) (endpoint host : String) :
    List (String × JVal) :=
  extract_metrics root "" [("endpoint", JVal.str endpoint), ("host", JVal.str host)]

/-- Embedding of `xml_to_metrics` (palo_alto_input_helper.py): endpoint and
host dimensions plus one `metric_name:`-prefixed entry per numeric element;
a parse failure is swallowed, returning only the two dimensions. -/
def xml_to_metrics (xml_text endpoint host : String) : List (String × JVal) :=
  match ET_fromstring xml_text with
  | Except.ok root => xml_to_metrics_tree root endpoint host
  | Except.error _ => [("endpoint", JVal.str endpoint), ("host", JVal.str host)]

/-- One output record of `custom_GET_api_threat_traffic`: the event dict
built for a kept entry. -/
structure PAEvent where
  happenedOn : String
  severity : String
  source : String
  message : String
deriving DecidableEq, Repr

/-- The event dict built by `custom_GET_api_threat_traffic` for a kept
entry: timestamp, the constant severity label `"warn"`, the source host and
the composite message assembled from the entry's fields. -/
def mkEvent (host logid sev : String) (en : Element) : PAEvent :=
  { happenedOn := findtextD en "time_generated" ""
    severity := "warn"
    source := host
    message := sev ++ " :: [" ++ logid ++ "] " ++ findtextD en "type" "" ++ " - " ++
      pyCapitalize (findtextD en "subtype" "") ++ " : " ++ findtextD en "threatid" "" ++
      " (" ++ findtextD en "direction" "" ++ " " ++ findtextD en "src" "" ++ " -> " ++
      findtextD en "dst" "" ++ ")" }

/-- Embedding of the entry loop of `custom_GET_api_threat_traffic` run on a
finished job's response: iterate `entry` elements, skip entries without a
(non-empty) `logid` attribute, keep those whose lower-cased severity is
`high` or `critical`. -/
def processEntries (r : Element) (host : String) : List PAEvent :=
  (iterTag r "entry").foldl (fun acc en =>
    match attribGet en "logid" with
    | none => acc
    | some l =>
      if l = "" then acc
      else
        let sev := findtextD en "severity" ""
        if pyLower sev = "high" ∨ pyLower sev = "critical" then
          acc ++ [mkEvent host l sev en]
        else acc) []

/-- Status of a poll response, as the source reads it:
`xml_root.findtext(".//job/status")`. -/
def statusOf (r : Element) : Option String := findtextJobStatus r

/-- Embedding of the poll loop of `custom_GET_api_threat_traffic` for one
job: `resp i` is the parsed response of the `i`-th status request.  Starting
at attempt `i` with `fuel` attempts remaining, returns the events produced
(empty if the job never reports `"FIN"`) together with the number of status
requests issued. -/
def pollAux (resp : Nat → Element) (host : String) : Nat → Nat → List PAEvent × Nat
  | _, 0 => ([], 0)
  | i, f + 1 =>
    if statusOf (resp i) = some "FIN" then (processEntries (resp i) host, 1)
    else
      let r := pollAux resp host (i + 1) f
      (r.1, r.2 + 1)

/-- The job identifiers of a submission response:
`[elem.text for elem in root.iter("job")]` (an element without text
contributes `None`). -/
def jobIdsOf (sub : Element) : List (Option String) :=
  (iterTag sub "job").map Element.text

/-- Embedding of `custom_GET_api_threat_traffic` (api_handlers.py) from the
point where the submission response has been parsed.  The network is
abstracted: `sub` is the parsed submission response and `resp j i` the
parsed response of the `i`-th status poll for job id `j`.  Each job is
polled for up to 11 attempts; a finished job's kept entries are appended to
the event list, an exhausted job is abandoned (logged, not raised) and the
loop moves on. -/
def custom_GET_api_threat_traffic (sub : Element)
    (resp : Option String → Nat → Element) (host : String) : List PAEvent :=
  (jobIdsOf sub).foldl (fun acc j => acc ++ (pollAux (resp j) host 0 11).1) []

/-- Declarative description of one job's polling outcome: the first of the
11 attempts whose response reports status `"FIN"`, if any. -/
def firstFin (resp : Nat → Element) : Option Nat :=
  (List.range 11).find? (fun i => decide (statusOf (resp i) = some "FIN"))

/-- The filter condition of the entry loop, stated as a predicate: a
non-empty `logid` attribute and a lower-cased severity of `high` or
`critical`. -/
def keepEntry (en : Element) : Bool :=
  (match attribGet en "logid" with
   | some l => decide (l ≠ "")
   | none => false) &&
  (pyLower (findtextD en "severity" "") == "high" ||
   pyLower (findtextD en "severity" "") == "critical")

/-- The event built from an entry once it is known to be kept. -/
def mkEventFrom (host : String) (en : Element) : PAEvent :=
  mkEvent host ((attribGet en "logid").getD "") (findtextD en "severity" "") en

/-- Hex digit rendering for the `json.dumps` escape model. -/
def hexDigit (n : Nat) : Char :=
  if n < 10 then Char.ofNat (48 + n) else Char.ofNat (87 + (n - 10))

/-- Escape one character the way `json.dumps(..., ensure_ascii=False)`
does. -/
def jsonEscapeChar (c : Char) : String :=
  if c = '"' then "\\\""
  else if c = '\\' then "\\\\"
  else if c = '\n' then "\\n"
  else if c = '\t' then "\\t"
  else if c = '\r' then "\\r"
  else if c.toNat = 8 then "\\b"
  else if c.toNat = 12 then "\\f"
  else if c.toNat < 32 then
    "\\u00" ++ String.mk [hexDigit (c.toNat / 16), hexDigit (c.toNat % 16)]
  else String.mk [c]

/-- JSON string literal for `s`. -/
def jsonStr (s : String) : String :=
  "\"" ++ String.join (s.data.map jsonEscapeChar) ++ "\""

/-- Model of `json.dumps(event, ensure_ascii=False, default=str)` on an
event dict produced by the threat/traffic strategy (keys in insertion
order, default separators). -/
def jsonDumpsEvent (e : PAEvent) : String :=
  "\x7b" ++ jsonStr "happenedOn" ++ ": " ++ jsonStr e.happenedOn ++ ", " ++
  jsonStr "severity" ++ ": " ++ jsonStr e.severity ++ ", " ++
  jsonStr "source" ++ ": " ++ jsonStr e.source ++ ", " ++
  jsonStr "message" ++ ": " ++ jsonStr e.message ++ "\x7d"

/-- One element of the `data` list handled by `process_host_endpoints`:
either a `{"_raw": xml}` record from the generic strategy or an event dict
from the threat/traffic strategy. -/
inductive DataRecord where
  | raw (xml : String)
  | ev (e : PAEvent)
deriving DecidableEq, Repr

/-- The `xml_text` that `process_host_endpoints` extracts from a record: the
raw payload when the record has an `"_raw"` key, otherwise the record's JSON
serialization. -/
def recordText : DataRecord → String
  | DataRecord.raw s => s
  | DataRecord.ev e => jsonDumpsEvent e

/-- Events-mode emission of `process_host_endpoints`: every record is pushed
through `xml_to_json` of its extracted text and written. -/
def eventsPayloads (data : List DataRecord) (endpoint host : String) :
    List (List (String × JVal)) :=
  data.map (fun r => xml_to_json (recordText r) endpoint host)

/-- Metrics-mode emission of `process_host_endpoints`: every record is
pushed through `xml_to_metrics` and written only when it holds more than the
two dimension fields. -/
def metricsPayloads (data : List DataRecord) (endpoint host : String) :
    List (List (String × JVal)) :=
  (data.map (fun r => xml_to_metrics (recordText r) endpoint host)).filter
    (fun m => m.length > 2)

/-- Abstract behaviour of one configured endpoint for one host, as seen by
`process_host_endpoints`: the endpoint-scoped work may raise (any exception
inside the per-endpoint `try`), hit an unknown script type, or return the
data list of one of the two strategies. -/
inductive EndpointBehavior where
  | raiseErr
  | unknownScript
  | generic (xml : String)
  | threat (evs : List PAEvent)

/-- The data list an endpoint behaviour delivers, if any: the generic
strategy returns one `{"_raw": ...}` record, the threat strategy a list of
event dicts; a raising endpoint or an unknown script type delivers
nothing (the loop logs and continues). -/
def behaviorData : EndpointBehavior → Option (List DataRecord)
  | EndpointBehavior.raiseErr => none
  | EndpointBehavior.unknownScript => none
  | EndpointBehavior.generic xml => some [DataRecord.raw xml]
  | EndpointBehavior.threat evs => some (evs.map DataRecord.ev)

/-- Payloads actually written for one endpoint. -/
def endpointEmitted (name : String) (b : EndpointBehavior) (host : String)
    (metricsMode : Bool) : List (List (String × JVal)) :=
  match behaviorData b with
  | none => []
  | some data =>
    if metricsMode then metricsPayloads data name host else eventsPayloads data name host

/-- Contribution of one endpoint to `total_events`: in metrics mode the
number of records actually written, in events mode `len(data)`. -/
def endpointCount (name : String) (b : EndpointBehavior) (host : String)
    (metricsMode : Bool) : Nat :=
  match behaviorData b with
  | none => 0
  | some data =>
    if metricsMode then (metricsPayloads data name host).length else data.length

/-- One target host as `process_host_endpoints` sees it: its address,
whether host-scoped processing raises (any exception outside the
per-endpoint `try`), the configured endpoints with their behaviours, and
the input's index type. -/
structure HostSpec where
  host : String
  hostRaises : Bool
  endpoints : List (String × EndpointBehavior)
  metricsMode : Bool

/-- Total events ingested for a host whose processing completes: sum over
the non-blank endpoint names. -/
def hostEmitCount (hs : HostSpec) : Nat :=
  hs.endpoints.foldl (fun acc nb =>
    if pyStrip nb.1 = "" then acc
    else acc + endpointCount nb.1 nb.2 hs.host hs.metricsMode) 0

/-- Embedding of `process_host_endpoints` (palo_alto_input_helper.py): a
host whose processing raises yields `(host, 0, False)`; otherwise every
endpoint is processed (endpoint failures are swallowed by `behaviorData`)
and the host yields `(host, total_events, True)`. -/
def process_host_endpoints (hs : HostSpec) : String × Nat × Bool :=
  if hs.hostRaises then (hs.host, 0, false)
  else (hs.host, hostEmitCount hs, true)

/-- Embedding of the result-collection loop of `stream_events`: fold the
per-host outcomes (in completion order) into
(successful_hosts, failed_hosts, total_events_all_hosts). -/
def streamTally (outcomes : List (String × Nat × Bool)) : Nat × Nat × Nat :=
  outcomes.foldl (fun t r =>
    if r.2.2 then (t.1 + 1, t.2.1, t.2.2 + r.2.1) else (t.1, t.2.1 + 1, t.2.2))
    (0, 0, 0)

/-- Is a value a Python list? -/
def JVal.isArr : JVal → Bool
  | JVal.arr _ => true
  | _ => false

/-- Non-recursive body of `element_to_dict`, with the child dict abstracted. -/
def elementBody (e : Element) (cd : List (String × JVal)) : JVal :=
  let node1 := dictUpdate (attrNode e) cd
  match e.text with
  | some t =>
    if pyStrip t ≠ "" then
      if node1.isEmpty then coerceText (pyStrip t)
      else JVal.obj (dictInsert node1 "#text" (JVal.str (pyStrip t)))
    else if node1.isEmpty then JVal.null else JVal.obj node1
  | none => if node1.isEmpty then JVal.null else JVal.obj node1

/-- The accumulated value stored under one key across successive duplicate
occurrences. -/
def foldJ (o : Option JVal) (ms : List JVal) : Option JVal :=
  ms.foldl (fun acc m => some (jAppend acc m)) o

/-- Per-job outcome of `custom_GET_api_threat_traffic`, stated declaratively:
the kept entries of the first of the 11 poll responses reporting `"FIN"`,
or nothing when the job never finishes in time. -/
def jobContribution (resp : Option String → Nat → Element) (host : String)
    (j : Option String) : List PAEvent :=
  match firstFin (resp j) with
  | some i => processEntries (resp j i) host
  | none => []

/-- Dotted-path construction of `extract_metrics`. -/
def joinPath (pp t : String) : String := if pp = "" then t else pp ++ "." ++ t

/-- The metric-recording step of `extract_metrics` for one child. -/
def metricStep (c : Element) (p : String) (acc : List (String × JVal)) :
    List (String × JVal) :=
  match c.text with
  | some t =>
    if pyStrip t ≠ "" then
      match pyFloat (pyStrip t) with
      | some v => dictInsert acc ("metric_name:" ++ p) (JVal.float v)
      | none => acc
    else acc
  | none => acc

mutual

/-- Well-formedness of a parsed document as the duplicate-tag and path
claims assume it: sibling tags are pairwise distinct on every level and no
tag collides with the reserved `"#text"` key. -/
def goodTree (e : Element) : Bool :=
  decide ((e.children.map Element.tag).Nodup) &&
  e.children.all (fun c => !(c.tag == "#text")) &&
  goodTreeL e.children
termination_by sizeOf e
decreasing_by
  all_goals simp_wf
  all_goals first
    | (have h := Element.sizeOf_children_lt c; omega)
    | (have h := Element.sizeOf_children_lt e; omega)
    | omega

/-- `goodTree` over a forest. -/
def goodTreeL : List Element → Bool
  | [] => true
  | c :: cs => goodTree c && goodTreeL cs
termination_by l => sizeOf l
decreasing_by
  all_goals simp_wf
  all_goals first
    | (have h := Element.sizeOf_children_lt c; omega)
    | (have h := Element.sizeOf_children_lt e; omega)
    | omega

end

/-- The element reached from `e` by following a chain of child tags (first
matching child at every step). -/
def elemAtPath (e : Element) : List String → Option Element
  | [] => some e
  | t :: ts =>
    match e.children.find? (fun c => c.tag == t) with
    | some c => elemAtPath c ts
    | none => none

/-- Lookup of a chain of keys in a converted value. -/
def jLookupPath (v : JVal) : List String → Option JVal
  | [] => some v
  | t :: ts =>
    match v with
    | JVal.obj m =>
      match dictLookup m t with
      | some w => jLookupPath w ts
      | none => none
    | _ => none

/-- Sample kept entry (high severity, logid present) for concrete runs. -/
def entryHigh : Element :=
  Element.mk "entry" [("logid", "1")] none
    [Element.mk "severity" [] (some "High") [],
     Element.mk "time_generated" [] (some "2026/01/01 00:00:00") [],
     Element.mk "type" [] (some "threat") [],
     Element.mk "subtype" [] (some "spyware") [],
     Element.mk "threatid" [] (some "TID") [],
     Element.mk "direction" [] (some "client-to-server") [],
     Element.mk "src" [] (some "1.1.1.1") [],
     Element.mk "dst" [] (some "2.2.2.2") []]

/-- Sample dropped entry (low severity). -/
def entryLow : Element :=
  Element.mk "entry" [("logid", "2")] none
    [Element.mk "severity" [] (some "Low") []]

/-- Sample poll response of a finished job carrying the two entries. -/
def finResp : Element :=
  Element.mk "response" [] none
    [Element.mk "result" [] none
      [Element.mk "job" [] none [Element.mk "status" [] (some "FIN") []],
       Element.mk "log" [] none [Element.mk "logs" [] none [entryHigh, entryLow]]]]

/-- Sample poll response of a still-active job. -/
def pendResp : Element :=
  Element.mk "response" [] none
    [Element.mk "result" [] none
      [Element.mk "job" [] none [Element.mk "status" [] (some "ACT") []]]]

/-- Sample submission response carrying two job ids. -/
def subTwoJobs : Element :=
  Element.mk "response" [] none
    [Element.mk "result" [] none
      [Element.mk "job" [] (some "17") [],
       Element.mk "job" [] (some "18") []]]

/-- Sample poll behaviour: job 17 finishes on its third poll, job 18 never
finishes. -/
def sampleResp : Option String → Nat → Element := fun j i =>
  if j = some "17" then (if 2 ≤ i then finResp else pendResp) else pendResp

/-- The event the sample high-severity entry is shaped into. -/
def eventHigh : PAEvent :=
  { happenedOn := "2026/01/01 00:00:00"
    severity := "warn"
    source := "10.0.0.5"
    message := "High :: [1] threat - Spyware : TID (client-to-server 1.1.1.1 -> 2.2.2.2)" }

/-- Sample duplicate-tag document `<r><a>1</a><a>2</a></r>`. -/
def rDup : Element :=
  Element.mk "r" [] none
    [Element.mk "a" [] (some "1") [], Element.mk "a" [] (some "2") []]

/-- Fuel-indexed twin of `descAllL`, used to evaluate concrete instances by
kernel reduction; it agrees with `descAllL` whenever the fuel dominates the
forest size (`descAllF_eq`). -/
def descAllF : Nat → List Element → List Element
  | 0, _ => []
  | _ + 1, [] => []
  | f + 1, c :: cs => c :: (descAllF f c.children ++ descAllF f cs)

/-- Fuel-indexed twin of `iterTagL` for kernel evaluation of concrete
instances. -/
def iterTagF : Nat → List Element → String → List Element
  | 0, _, _ => []
  | _ + 1, [], _ => []
  | f + 1, c :: cs, t =>
    ((if c.tag = t then [c] else []) ++ iterTagF f c.children t) ++ iterTagF f cs t

/-- Fuel-indexed twin of `descWithPaths` for kernel evaluation of concrete
instances. -/
def descWithPathsF : Nat → String → List Element → List (String × Element)
  | 0, _, _ => []
  | _ + 1, _, [] => []
  | f + 1, pp, c :: cs =>
    let p := if pp = "" then c.tag else pp ++ "." ++ c.tag
    (p, c) :: (descWithPathsF f p c.children ++ descWithPathsF f pp cs)

mutual

/-- Fuel-indexed twin of `element_to_dict` for kernel evaluation of
concrete instances. -/
def element_to_dictF : Nat → Element → JVal
  | 0, _ => JVal.null
  | f + 1, e => elementBody e (childFoldF f e.children [])

/-- Fuel-indexed twin of `childFold`. -/
def childFoldF : Nat → List Element → List (String × JVal) → List (String × JVal)
  | 0, _, d => d
  | _ + 1, [], d => d
  | f + 1, c :: cs, d => childFoldF f cs (addChild d c.tag (element_to_dictF f c))

end

/-- Fuel-indexed twin of `goodTree` for kernel evaluation of concrete
instances. -/
def goodTreeF : Nat → Element → Bool
  | 0, _ => false
  | f + 1, e =>
    decide ((e.children.map Element.tag).Nodup) &&
    e.children.all (fun c => !(c.tag == "#text")) &&
    goodTreeLF f e.children
where
  /-- Fuel-indexed twin of `goodTreeL`. -/
  goodTreeLF : Nat → List Element → Bool
  | 0, _ => false
  | _ + 1, [] => true
  | f + 1, c :: cs => goodTreeF f c && goodTreeLF f cs

/-- Sample submission response carrying a single job id. -/
def subOneJob : Element :=
  Element.mk "response" [] none
    [Element.mk "result" [] none [Element.mk "job" [] (some "9") []]]

/-- Sample poll behaviour answering every status request with the finished
response. -/
def respFin : Option String → Nat → Element := fun _ _ => finResp

/-- Sample event record as the threat/traffic strategy produces it. -/
def threatSampleEvent : PAEvent :=
  { happenedOn := "2026/01/01 00:00:00"
    severity := "warn"
    source := "10.0.0.5"
    message := "High :: [1] threat - Spyware : TID (client-to-server 1.1.1.1 -> 2.2.2.2)" }

/-- Sample document with a numeric leaf at path system → cpu. -/
def tEx : Element :=
  Element.mk "result" [] none
    [Element.mk "system" [] none [Element.mk "cpu" [] (some "15.5") []]]

/-- Sample metric document with a numeric and a textual leaf. -/
def mEx : Element :=
  Element.mk "result" [] none
    [Element.mk "system" [] none
      [Element.mk "cpu" [] (some "15.2") [], Element.mk "name" [] (some "fw") []]]

/-- Sample host spec that completes normally with one threat endpoint. -/
def hostOK (n : String) : HostSpec :=
  ⟨n, false, [("ep", EndpointBehavior.threat [eventHigh])], false⟩

/-- Sample host spec whose processing raises. -/
def hostBad : HostSpec :=
  ⟨"h2", true, [("ep", EndpointBehavior.threat [eventHigh])], false⟩

/-- Sample fan-out run: three hosts, one of which raises. -/
def specs3 : List HostSpec := [hostOK "h1", hostBad, hostOK "h3"]

/-- The same run's outcomes in a different completion order. -/
def outs3 : List (String × Nat × Bool) :=
  [("h3", 1, true), ("h2", 0, false), ("h1", 1, true)]

theorem dictLookup_dictInsert (d : List (String × JVal)) (k : String) (v : JVal)
    (key : String) :
    dictLookup (dictInsert d k v) key = if key = k then some v else dictLookup d key := by
  induction d with
  | nil =>
    by_cases h : key = k
    · subst h; simp [dictInsert, dictLookup]
    · simp [dictInsert, dictLookup, h, Ne.symm h]
  | cons hd tl ih =>
    obtain ⟨k0, v0⟩ := hd
    by_cases h0 : k0 = k
    · subst h0
      by_cases h : key = k0
      · subst h; simp [dictInsert, dictLookup]
      · simp [dictInsert, dictLookup, h, Ne.symm h]
    · by_cases h : key = k0
      · subst h; simp [dictInsert, dictLookup, h0, Ne.symm h0]
      · simp [dictInsert, dictLookup, h0, h, Ne.symm h, ih]

theorem dictLookup_nonempty (d : List (String × JVal)) (k : String) (v : JVal)
    (h : dictLookup d k = some v) : d.isEmpty = false := by
  cases d with
  | nil => simp [dictLookup] at h
  | cons hd tl => simp [List.isEmpty]

@[simp] theorem Element.tag_mk (t : String) (a : List (String × String))
    (tx : Option String) (cs : List Element) : (Element.mk t a tx cs).tag = t := rfl

@[simp] theorem Element.attrib_mk (t : String) (a : List (String × String))
    (tx : Option String) (cs : List Element) : (Element.mk t a tx cs).attrib = a := rfl

@[simp] theorem Element.text_mk (t : String) (a : List (String × String))
    (tx : Option String) (cs : List Element) : (Element.mk t a tx cs).text = tx := rfl

@[simp] theorem Element.children_mk (t : String) (a : List (String × String))
    (tx : Option String) (cs : List Element) : (Element.mk t a tx cs).children = cs := rfl

theorem dictLookup_eq_none_of_not_mem (d : List (String × JVal)) (k : String)
    (h : k ∉ dictKeys d) : dictLookup d k = none := by
  induction d with
  | nil => rfl
  | cons hd tl ih =>
    obtain ⟨k0, v0⟩ := hd
    simp [dictKeys] at h
    simp [dictLookup, Ne.symm h.1, ih (by simp [dictKeys, h.2])]

theorem dictKeys_dictInsert (d : List (String × JVal)) (k : String) (v : JVal) :
    dictKeys (dictInsert d k v) =
      if k ∈ dictKeys d then dictKeys d else dictKeys d ++ [k] := by
  induction d with
  | nil => simp [dictInsert, dictKeys]
  | cons hd tl ih =>
    obtain ⟨k0, v0⟩ := hd
    by_cases h0 : k0 = k
    · subst h0; simp [dictInsert, dictKeys]
    · have hstep : dictInsert ((k0, v0) :: tl) k v = (k0, v0) :: dictInsert tl k v := by
        simp [dictInsert, h0]
      rw [hstep, show dictKeys ((k0, v0) :: dictInsert tl k v)
          = k0 :: dictKeys (dictInsert tl k v) from rfl,
        show dictKeys ((k0, v0) :: tl) = k0 :: dictKeys tl from rfl, ih]
      by_cases hmem : k ∈ dictKeys tl
      · simp [hmem, List.mem_cons, Ne.symm h0]
      · simp [hmem, List.mem_cons, Ne.symm h0]

theorem dictKeys_nodup_dictInsert (d : List (String × JVal)) (k : String) (v : JVal)
    (h : (dictKeys d).Nodup) : (dictKeys (dictInsert d k v)).Nodup := by
  rw [dictKeys_dictInsert]
  by_cases hmem : k ∈ dictKeys d
  · simpa [hmem]
  · simpa [hmem, List.nodup_append] using h

theorem dictLookup_dictUpdate (upd : List (String × JVal))
    (h : (dictKeys upd).Nodup) (d : List (String × JVal)) (k : String) :
    dictLookup (dictUpdate d upd) k =
      match dictLookup upd k with
      | some v => some v
      | none => dictLookup d k := by
  induction upd generalizing d with
  | nil => simp [dictUpdate, dictLookup]
  | cons hd tl ih =>
    obtain ⟨k0, v0⟩ := hd
    have hstep : dictUpdate d ((k0, v0) :: tl) = dictUpdate (dictInsert d k0 v0) tl := by
      simp [dictUpdate]
    rw [show dictKeys ((k0, v0) :: tl) = k0 :: dictKeys tl from rfl,
      List.nodup_cons] at h
    obtain ⟨hk0, htl⟩ := h
    rw [hstep, ih htl]
    by_cases hk : k = k0
    · subst hk
      simp [dictLookup, dictLookup_eq_none_of_not_mem tl k hk0, dictLookup_dictInsert]
    · simp [dictLookup, Ne.symm hk, hk, dictLookup_dictInsert]

@[simp] theorem JVal.isArr_null : JVal.null.isArr = false := rfl

@[simp] theorem JVal.isArr_int (n : Int) : (JVal.int n).isArr = false := rfl

@[simp] theorem JVal.isArr_float (f : PyFloat) : (JVal.float f).isArr = false := rfl

@[simp] theorem JVal.isArr_str (s : String) : (JVal.str s).isArr = false := rfl

@[simp] theorem JVal.isArr_obj (m : List (String × JVal)) : (JVal.obj m).isArr = false := rfl

@[simp] theorem JVal.isArr_arr (xs : List JVal) : (JVal.arr xs).isArr = true := rfl

theorem coerceText_not_arr (t : String) : (coerceText t).isArr = false := by
  unfold coerceText
  cases pyInt t with
  | some n => simp
  | none =>
    cases pyFloat t with
    | some f => simp
    | none => simp

theorem element_to_dict_eq (e : Element) :
    element_to_dict e = elementBody e (childFold e.children []) := by
  rw [element_to_dict, elementBody]

theorem element_to_dict_not_arr (e : Element) : (element_to_dict e).isArr = false := by
  rw [element_to_dict_eq, elementBody]
  cases e.text with
  | none =>
    by_cases h : (dictUpdate (attrNode e) (childFold e.children [])).isEmpty <;>
      simp [h]
  | some t =>
    by_cases ht : pyStrip t ≠ ""
    · by_cases h : (dictUpdate (attrNode e) (childFold e.children [])).isEmpty <;>
        simp [h, ht, coerceText_not_arr]
    · by_cases h : (dictUpdate (attrNode e) (childFold e.children [])).isEmpty <;>
        simp [h, ht]

@[simp] theorem childFold_nil (d : List (String × JVal)) : childFold [] d = d := by
  rw [childFold]

@[simp] theorem childFold_cons (c : Element) (cs : List Element)
    (d : List (String × JVal)) :
    childFold (c :: cs) d = childFold cs (addChild d c.tag (element_to_dict c)) := by
  rw [childFold]

theorem dictLookup_addChild (d : List (String × JVal)) (t : String) (v : JVal)
    (key : String) :
    dictLookup (addChild d t v) key =
      if key = t then some (jAppend (dictLookup d t) v) else dictLookup d key := by
  simp [addChild, dictLookup_dictInsert]

theorem dictKeys_nodup_addChild (d : List (String × JVal)) (t : String) (v : JVal)
    (h : (dictKeys d).Nodup) : (dictKeys (addChild d t v)).Nodup :=
  dictKeys_nodup_dictInsert _ _ _ h

theorem childFold_keys_nodup (cs : List Element) (d : List (String × JVal))
    (h : (dictKeys d).Nodup) : (dictKeys (childFold cs d)).Nodup := by
  induction cs generalizing d with
  | nil => simpa
  | cons c cs ih => simpa using ih _ (dictKeys_nodup_addChild _ _ _ h)

@[simp] theorem foldJ_nil (o : Option JVal) : foldJ o [] = o := rfl

@[simp] theorem foldJ_cons (o : Option JVal) (m : JVal) (ms : List JVal) :
    foldJ o (m :: ms) = foldJ (some (jAppend o m)) ms := rfl

theorem childFold_lookup (cs : List Element) (d : List (String × JVal)) (tag : String) :
    dictLookup (childFold cs d) tag =
      foldJ (dictLookup d tag)
        ((cs.filter (fun c => c.tag == tag)).map element_to_dict) := by
  induction cs generalizing d with
  | nil => simp
  | cons c cs ih =>
    by_cases h : c.tag = tag
    · simp [List.filter_cons, h, ih, dictLookup_addChild]
    · simp [List.filter_cons, h, ih, dictLookup_addChild, Ne.symm h]

theorem foldJ_arr (xs : List JVal) (ms : List JVal) :
    foldJ (some (JVal.arr xs)) ms = some (JVal.arr (xs ++ ms)) := by
  induction ms generalizing xs with
  | nil => simp
  | cons m ms ih => simp [jAppend, ih]

theorem foldJ_none_single (m : JVal) : foldJ none [m] = some m := by
  simp [jAppend]

theorem foldJ_none_notArr (m : JVal) (hm : m.isArr = false) (m2 : JVal) (ms : List JVal) :
    foldJ none (m :: m2 :: ms) = some (JVal.arr (m :: m2 :: ms)) := by
  have hj : jAppend (some m) m2 = JVal.arr [m, m2] := by
    cases m <;> simp_all [jAppend]
  rw [foldJ_cons, foldJ_cons, show jAppend none m = m from rfl, hj, foldJ_arr]
  simp

theorem pollAux_fst (resp : Nat → Element) (host : String) (f i : Nat) :
    (pollAux resp host i f).1 =
      match (List.range' i f).find? (fun j => decide (statusOf (resp j) = some "FIN")) with
      | some j => processEntries (resp j) host
      | none => [] := by
  induction f generalizing i with
  | zero => simp [pollAux, List.range']
  | succ f ih =>
    rw [show List.range' i (f + 1) = i :: List.range' (i + 1) f from rfl]
    by_cases h : statusOf (resp i) = some "FIN"
    · simp [pollAux, h, List.find?]
    · simp [pollAux, h, List.find?, ih]

theorem pollAux_snd_le (resp : Nat → Element) (host : String) (f i : Nat) :
    (pollAux resp host i f).2 ≤ f := by
  induction f generalizing i with
  | zero => simp [pollAux]
  | succ f ih =>
    by_cases h : statusOf (resp i) = some "FIN"
    · simp [pollAux, h]
    · have hrec := ih (i + 1)
      simp [pollAux, h]
      omega

theorem foldl_append_eq_flatten {α β : Type} (g : α → List β) (l : List α)
    (acc : List β) :
    l.foldl (fun a x => a ++ g x) acc = acc ++ (l.map g).flatten := by
  induction l generalizing acc with
  | nil => simp
  | cons x xs ih => simp [ih]

theorem pollAux_eq_jobContribution (resp : Option String → Nat → Element)
    (host : String) (j : Option String) :
    (pollAux (resp j) host 0 11).1 = jobContribution resp host j := by
  rw [pollAux_fst, jobContribution, firstFin, List.range_eq_range']

theorem processEntries_step (host : String) (acc : List PAEvent) (en : Element) :
    (match attribGet en "logid" with
     | none => acc
     | some l =>
       if l = "" then acc
       else
         let sev := findtextD en "severity" ""
         if pyLower sev = "high" ∨ pyLower sev = "critical" then
           acc ++ [mkEvent host l sev en]
         else acc) =
      if keepEntry en then acc ++ [mkEventFrom host en] else acc := by
  cases hl : attribGet en "logid" with
  | none => simp [keepEntry, hl]
  | some l =>
    by_cases he : l = ""
    · simp [keepEntry, hl, he]
    · by_cases hs : pyLower (findtextD en "severity" "") = "high" ∨
        pyLower (findtextD en "severity" "") = "critical"
      · have hk : keepEntry en = true := by
          rcases hs with hs | hs <;> simp [keepEntry, hl, he, hs]
        simp [hk, hs, he, mkEventFrom, hl]
      · have hk : keepEntry en = false := by
          push_neg at hs
          simp [keepEntry, hl, he, hs.1, hs.2]
        simp [hk, hs]

theorem processEntries_eq (r : Element) (host : String) :
    processEntries r host =
      ((iterTag r "entry").filter keepEntry).map (mkEventFrom host) := by
  rw [processEntries]
  generalize (iterTag r "entry") = l
  suffices h : ∀ (acc : List PAEvent),
      l.foldl (fun acc en =>
        match attribGet en "logid" with
        | none => acc
        | some l =>
          if l = "" then acc
          else
            let sev := findtextD en "severity" ""
            if pyLower sev = "high" ∨ pyLower sev = "critical" then
              acc ++ [mkEvent host l sev en]
            else acc) acc =
        acc ++ (l.filter keepEntry).map (mkEventFrom host) by
    simpa using h []
  induction l with
  | nil => simp
  | cons en l ih =>
    intro acc
    rw [List.foldl_cons, processEntries_step host acc en]
    by_cases hk : keepEntry en
    · simp [hk, List.filter_cons, ih]
    · simp [hk, List.filter_cons, ih]

@[simp] theorem metricChildren_nil (pp : String) (acc : List (String × JVal)) :
    metricChildren [] pp acc = acc := by
  rw [metricChildren]

theorem metricChildren_cons (c : Element) (cs : List Element) (pp : String)
    (acc : List (String × JVal)) :
    metricChildren (c :: cs) pp acc =
      metricChildren cs pp
        (metricChildren c.children (joinPath pp c.tag)
          (metricStep c (joinPath pp c.tag) acc)) := by
  rw [metricChildren]
  congr 1
  by_cases h : c.children.length > 0
  · rw [if_pos h, extract_metrics]
    rfl
  · have hnil : c.children = [] := List.length_eq_zero.mp (by omega)
    rw [if_neg h, hnil, metricChildren_nil]
    rfl

theorem dictLookup_metricStep (c : Element) (p : String) (acc : List (String × JVal))
    (k : String) :
    (dictLookup (metricStep c p acc) k ≠ none) ↔
      (dictLookup acc k ≠ none ∨ (k = "metric_name:" ++ p ∧ numericText c = true)) := by
  unfold metricStep numericText
  cases c.text with
  | none => simp
  | some t =>
    by_cases hs : pyStrip t = ""
    · simp [hs]
    · cases hf : pyFloat (pyStrip t) with
      | none => simp [hs, hf]
      | some v =>
        simp only [hs, hf, if_pos, ne_eq, not_false_eq_true, Option.isSome_some,
          and_true, dictLookup_dictInsert]
        by_cases hk : k = "metric_name:" ++ p
        · simp [hk]
        · simp [hk]

theorem metricChildren_lookup : ∀ (cs : List Element) (pp : String)
    (acc : List (String × JVal)) (k : String),
    (dictLookup (metricChildren cs pp acc) k ≠ none) ↔
      (dictLookup acc k ≠ none ∨
        ∃ pe ∈ descWithPaths pp cs,
          k = "metric_name:" ++ pe.1 ∧ numericText pe.2 = true)
  | [], pp, acc, k => by simp [descWithPaths]
  | c :: cs, pp, acc, k => by
    rw [metricChildren_cons,
      metricChildren_lookup cs pp _ k,
      metricChildren_lookup c.children (joinPath pp c.tag) _ k,
      dictLookup_metricStep, descWithPaths]
    simp only [joinPath, List.mem_cons, List.mem_append]
    constructor
    · rintro ((((ha | hc) | hkid) | htail))
      · exact Or.inl ha
      · exact Or.inr ⟨(_, c), Or.inl rfl, hc.1, hc.2⟩
      · obtain ⟨pe, hmem, hk, hn⟩ := hkid
        exact Or.inr ⟨pe, Or.inr (Or.inl hmem), hk, hn⟩
      · obtain ⟨pe, hmem, hk, hn⟩ := htail
        exact Or.inr ⟨pe, Or.inr (Or.inr hmem), hk, hn⟩
    · rintro (ha | ⟨pe, (hpe | hpe | hpe), hk, hn⟩)
      · exact Or.inl (Or.inl (Or.inl ha))
      · subst hpe
        exact Or.inl (Or.inl (Or.inr ⟨hk, hn⟩))
      · exact Or.inl (Or.inr ⟨pe, hpe, hk, hn⟩)
      · exact Or.inr ⟨pe, hpe, hk, hn⟩
termination_by cs _ _ _ => sizeOf cs
decreasing_by
  all_goals simp_wf
  all_goals first
    | (have h := Element.sizeOf_children_lt c; omega)
    | omega

theorem custom_eq_flatten (sub : Element) (resp : Option String → Nat → Element)
    (hostv : String) :
    custom_GET_api_threat_traffic sub resp hostv =
      ((jobIdsOf sub).map (jobContribution resp hostv)).flatten := by
  rw [custom_GET_api_threat_traffic,
    foldl_append_eq_flatten (fun j => (pollAux (resp j) hostv 0 11).1)]
  simp only [List.nil_append]
  congr 1
  exact List.map_congr_left (fun j _ => pollAux_eq_jobContribution resp hostv j)

theorem filter_eq_single_of_nodup (cs : List Element) (t : String)
    (hnd : (cs.map Element.tag).Nodup) (c : Element)
    (hfind : cs.find? (fun x => x.tag == t) = some c) :
    cs.filter (fun x => x.tag == t) = [c] := by
  induction cs with
  | nil => simp at hfind
  | cons hd tl ih =>
    rw [List.map_cons, List.nodup_cons] at hnd
    by_cases hh : hd.tag = t
    · have hc : c = hd := by
        rw [List.find?_cons_of_pos _ (by simp [hh])] at hfind
        exact (Option.some_injective _ hfind).symm
      subst hc
      rw [List.filter_cons_of_pos (by simp [hh])]
      have hnone : tl.filter (fun x => x.tag == t) = [] := by
        rw [List.filter_eq_nil_iff]
        intro x hx
        simp only [beq_iff_eq]
        intro hxt
        exact hnd.1 (by rw [hh, ← hxt]; exact List.mem_map_of_mem Element.tag hx)
      rw [hnone]
    · rw [List.find?_cons_of_neg _ (by simp [hh])] at hfind
      rw [List.filter_cons_of_neg (by simp [hh])]
      exact ih hnd.2 hfind

theorem goodTree_parts (e : Element) (h : goodTree e = true) :
    (e.children.map Element.tag).Nodup ∧
      (∀ c ∈ e.children, c.tag ≠ "#text") ∧ goodTreeL e.children = true := by
  rw [goodTree] at h
  simp only [Bool.and_eq_true, decide_eq_true_eq, List.all_eq_true] at h
  exact ⟨h.1.1, fun c hc => by simpa using h.1.2 c hc, h.2⟩

theorem goodTreeL_mem (cs : List Element) (h : goodTreeL cs = true) (c : Element)
    (hc : c ∈ cs) : goodTree c = true := by
  induction cs with
  | nil => simp at hc
  | cons hd tl ih =>
    rw [goodTreeL, Bool.and_eq_true] at h
    rcases List.mem_cons.mp hc with hc | hc
    · exact hc ▸ h.1
    · exact ih h.2 hc

theorem string_append_left_cancel (a x y : String) (h : a ++ x = a ++ y) : x = y := by
  have hd : (a ++ x).data = (a ++ y).data := by rw [h]
  rw [String.data_append, String.data_append] at hd
  exact String.ext (List.append_cancel_left hd)

theorem metricKey_ne_endpoint (p : String) : ¬("endpoint" = "metric_name:" ++ p) := by
  intro h
  have hlen : ("endpoint" : String).length = ("metric_name:" ++ p).length := by rw [h]
  rw [String.length_append] at hlen
  have h1 : ("endpoint" : String).length = 8 := by decide
  have h2 : ("metric_name:" : String).length = 12 := by decide
  omega

theorem metricKey_ne_host (p : String) : ¬("host" = "metric_name:" ++ p) := by
  intro h
  have hlen : ("host" : String).length = ("metric_name:" ++ p).length := by rw [h]
  rw [String.length_append] at hlen
  have h1 : ("host" : String).length = 4 := by decide
  have h2 : ("metric_name:" : String).length = 12 := by decide
  omega

theorem streamTally_go (rs : List (String × Nat × Bool)) (t : Nat × Nat × Nat) :
    rs.foldl (fun t r =>
        if r.2.2 then (t.1 + 1, t.2.1, t.2.2 + r.2.1) else (t.1, t.2.1 + 1, t.2.2)) t =
      (t.1 + rs.countP (fun r => r.2.2),
       t.2.1 + rs.countP (fun r => !r.2.2),
       t.2.2 + ((rs.filter (fun r => r.2.2)).map (fun r => r.2.1)).sum) := by
  induction rs generalizing t with
  | nil => simp
  | cons r rs ih =>
    by_cases h : r.2.2
    · simp [List.foldl_cons, h, ih, List.countP_cons, List.filter_cons]
      omega
    · simp [List.foldl_cons, h, ih, List.countP_cons, List.filter_cons]
      omega

theorem streamTally_eq (rs : List (String × Nat × Bool)) :
    streamTally rs =
      (rs.countP (fun r => r.2.2), rs.countP (fun r => !r.2.2),
       ((rs.filter (fun r => r.2.2)).map (fun r => r.2.1)).sum) := by
  rw [streamTally, streamTally_go]
  simp

theorem element_to_dict_obj_lookup (e : Element) (tag : String) (htag : tag ≠ "#text")
    (v : JVal) (hv : dictLookup (childFold e.children []) tag = some v) :
    ∃ node, element_to_dict e = JVal.obj node ∧ dictLookup node tag = some v := by
  have hnodup : (dictKeys (childFold e.children [])).Nodup :=
    childFold_keys_nodup _ _ (by simp [dictKeys])
  have hn1 : dictLookup (dictUpdate (attrNode e) (childFold e.children [])) tag
      = some v := by
    rw [dictLookup_dictUpdate _ hnodup, hv]
  have hne : (dictUpdate (attrNode e) (childFold e.children [])).isEmpty = false :=
    dictLookup_nonempty _ _ _ hn1
  rw [element_to_dict_eq]
  unfold elementBody
  cases htx : e.text with
  | none => exact ⟨_, by simp [hne], hn1⟩
  | some t =>
    by_cases hst : pyStrip t ≠ ""
    · refine ⟨dictInsert (dictUpdate (attrNode e) (childFold e.children [])) "#text"
        (JVal.str (pyStrip t)), by simp [hne, hst], ?_⟩
      rw [dictLookup_dictInsert]
      simp [htag, hn1]
    · exact ⟨_, by simp [hne, hst], hn1⟩

/-- Claim C1: for a submission response with N job ids, the job-polling
strategy polls each job at most 11 times, returns the concatenation (in job
order) of the kept entries of every job that reaches status `"FIN"` within
its 11 attempts, and a job that exhausts its attempts contributes nothing
while later jobs are still processed. -/
theorem claim_C1 (sub : Element) (resp : Option String → Nat → Element)
    (hostv : String) :
    custom_GET_api_threat_traffic sub resp hostv =
      ((jobIdsOf sub).map (jobContribution resp hostv)).flatten ∧
    ∀ j : Option String, (pollAux (resp j) hostv 0 11).2 ≤ 11 := by
  exact ⟨custom_eq_flatten sub resp hostv, fun j => pollAux_snd_le _ _ _ _⟩

/-- Claim C2: an entry of a finished job is kept iff it has a non-empty
`logid` attribute and its lower-cased severity is `"high"` or `"critical"`;
entries with severities `medium`/`low`/`informational`, with no severity
element (default `""`), or without the `logid` attribute are dropped. -/
theorem claim_C2 (r : Element) (hostv : String) :
    processEntries r hostv =
      ((iterTag r "entry").filter keepEntry).map (mkEventFrom hostv) ∧
    (∀ en : Element, keepEntry en = true ↔
      ((∃ l, attribGet en "logid" = some l ∧ l ≠ "") ∧
        (pyLower (findtextD en "severity" "") = "high" ∨
         pyLower (findtextD en "severity" "") = "critical"))) ∧
    (∀ en : Element, attribGet en "logid" = none → keepEntry en = false) ∧
    (∀ en : Element,
      pyLower (findtextD en "severity" "") ∈
        (["medium", "low", "informational", ""] : List String) →
      keepEntry en = false) := by
  refine ⟨processEntries_eq r hostv, ?_, ?_, ?_⟩
  · intro en
    constructor
    · intro h
      rw [keepEntry, Bool.and_eq_true] at h
      obtain ⟨h1, h2⟩ := h
      constructor
      · cases hl : attribGet en "logid" with
        | none => rw [hl] at h1; simp at h1
        | some l =>
          rw [hl] at h1
          simp at h1
          exact ⟨l, rfl, h1⟩
      · rcases Bool.or_eq_true _ _ |>.mp h2 with h | h
        · exact Or.inl (by simpa using h)
        · exact Or.inr (by simpa using h)
    · rintro ⟨⟨l, hl, hne⟩, hsev⟩
      rw [keepEntry, hl]
      rcases hsev with h | h <;> simp [hne, h]
  · intro en h
    rw [keepEntry, h]
    simp
  · intro en h
    rw [keepEntry]
    simp only [List.mem_cons, List.not_mem_nil, or_false] at h
    rcases h with h | h | h | h <;>
      (rw [h]; cases attribGet en "logid" <;> simp)

/-- Claim C3: when a tag occurs `k ≥ 2` times among one parent's children
(in a well-formed document, so the tag is not the reserved `"#text"` key),
the parent's conversion is a mapping whose value under that tag is the list
of the converted occurrences, in document order, of length exactly `k`. -/
theorem claim_C3 (e : Element) (tag : String) (htag : tag ≠ "#text")
    (hcount : 2 ≤ (e.children.filter (fun c => c.tag == tag)).length) :
    ∃ node, element_to_dict e = JVal.obj node ∧
      dictLookup node tag =
        some (JVal.arr
          ((e.children.filter (fun c => c.tag == tag)).map element_to_dict)) ∧
      ((e.children.filter (fun c => c.tag == tag)).map element_to_dict).length =
        (e.children.filter (fun c => c.tag == tag)).length := by
  obtain ⟨m1, rest, hms⟩ : ∃ m1 rest, e.children.filter (fun c => c.tag == tag)
      = m1 :: rest := by
    cases hl : e.children.filter (fun c => c.tag == tag) with
    | nil => rw [hl] at hcount; simp at hcount
    | cons a b => exact ⟨a, b, rfl⟩
  obtain ⟨m2, rest2, hms2⟩ : ∃ m2 rest2, rest = m2 :: rest2 := by
    cases hl : rest with
    | nil => rw [hms, hl] at hcount; simp at hcount
    | cons a b => exact ⟨a, b, rfl⟩
  have hcf : dictLookup (childFold e.children []) tag =
      some (JVal.arr ((e.children.filter (fun c => c.tag == tag)).map element_to_dict)) := by
    rw [childFold_lookup, hms, hms2]
    rw [show dictLookup [] tag = none from rfl]
    simp only [List.map_cons]
    exact foldJ_none_notArr _ (element_to_dict_not_arr m1) _ _
  obtain ⟨node, h1, h2⟩ := element_to_dict_obj_lookup e tag htag _ hcf
  exact ⟨node, h1, h2, by simp⟩

/-- Claim C5: the metric conversion of a parsed document contains an entry
for dotted path `p` (root tag excluded) iff some element at that path has
trimmed text that parses as a float; non-numeric elements contribute no
metric even though their children are still visited. -/
theorem claim_C5 (root : Element) (endpoint hostv p : String) :
    (dictLookup (xml_to_metrics_tree root endpoint hostv) ("metric_name:" ++ p)
        ≠ none) ↔
      (∃ pe ∈ descWithPaths "" root.children,
        pe.1 = p ∧ numericText pe.2 = true) := by
  rw [xml_to_metrics_tree, extract_metrics, metricChildren_lookup]
  have hbase : dictLookup
      [("endpoint", JVal.str endpoint), ("host", JVal.str hostv)]
      ("metric_name:" ++ p) = none := by
    simp [dictLookup, metricKey_ne_endpoint p, metricKey_ne_host p]
  rw [hbase]
  simp only [ne_eq, not_true_eq_false, false_or]
  constructor
  · rintro ⟨pe, hmem, hk, hn⟩
    exact ⟨pe, hmem, string_append_left_cancel "metric_name:" _ _ hk.symm, hn⟩
  · rintro ⟨pe, hmem, hp, hn⟩
    exact ⟨pe, hmem, by rw [hp], hn⟩

/-- Claim C6: an input text that fails markup parsing makes `xml_to_json`
return (not raise) a record with no `data` entry and an `error` entry
carrying a parse-failure description, and makes `xml_to_metrics` return
(not raise) only the endpoint and host fields. -/
theorem claim_C6 (s endpoint hostv msg : String)
    (h : ET_fromstring s = Except.error msg) :
    xml_to_json s endpoint hostv =
      [("endpoint", JVal.str endpoint), ("host", JVal.str hostv),
       ("error", JVal.str ("XML parsing failed: " ++ msg))] ∧
    dictLookup (xml_to_json s endpoint hostv) "data" = none ∧
    xml_to_metrics s endpoint hostv =
      [("endpoint", JVal.str endpoint), ("host", JVal.str hostv)] := by
  refine ⟨?_, ?_, ?_⟩
  · rw [xml_to_json, h]
    rfl
  · rw [xml_to_json, h]
    simp [dictLookup]
  · rw [xml_to_metrics, h]

theorem process_flag (hs : HostSpec) :
    (process_host_endpoints hs).2.2 = !hs.hostRaises := by
  by_cases h : hs.hostRaises <;> simp [process_host_endpoints, h]

theorem tally_map_process (specs : List HostSpec) :
    streamTally (specs.map process_host_endpoints) =
      ((specs.filter (fun h => !h.hostRaises)).length,
       (specs.filter (fun h => h.hostRaises)).length,
       ((specs.filter (fun h => !h.hostRaises)).map hostEmitCount).sum) := by
  rw [streamTally_eq]
  have he1 : ((fun r : String × Nat × Bool => r.2.2) ∘ process_host_endpoints) =
      fun hs : HostSpec => !hs.hostRaises := by
    funext hs
    simp [Function.comp, process_flag]
  have he2 : ((fun r : String × Nat × Bool => !r.2.2) ∘ process_host_endpoints) =
      fun hs : HostSpec => hs.hostRaises := by
    funext hs
    simp [Function.comp, process_flag]
  have h1 : (specs.map process_host_endpoints).countP (fun r => r.2.2) =
      (specs.filter (fun h => !h.hostRaises)).length := by
    rw [List.countP_map, he1, List.countP_eq_length_filter]
  have h2 : (specs.map process_host_endpoints).countP (fun r => !r.2.2) =
      (specs.filter (fun h => h.hostRaises)).length := by
    rw [List.countP_map, he2, List.countP_eq_length_filter]
  have h3 : (((specs.map process_host_endpoints).filter (fun r => r.2.2)).map
      (fun r => r.2.1)).sum =
      ((specs.filter (fun h => !h.hostRaises)).map hostEmitCount).sum := by
    rw [List.filter_map, List.map_map, he1]
    refine congrArg List.sum (List.map_congr_left ?_)
    intro hs hmem
    have hflag : hs.hostRaises = false := by
      simpa using (List.mem_filter.mp hmem).2
    simp [Function.comp, process_host_endpoints, hflag]
  rw [h1, h2, h3]

theorem filter_length_split (l : List HostSpec) :
    (l.filter (fun h => !h.hostRaises)).length +
      (l.filter (fun h => h.hostRaises)).length = l.length := by
  induction l with
  | nil => rfl
  | cons x xs ih =>
    by_cases hx : x.hostRaises <;> simp [List.filter_cons, hx] <;> omega

/-- Claim C7: over H configured hosts of which f raise during their
per-host processing, the fan-out tally — computed from the host outcomes in
any completion order — reports exactly H−f successes, f failures, and a
total equal to the sum of the successful hosts' emitted counts; the
aggregation itself is a total function (it cannot raise). -/
theorem claim_C7 (specs : List HostSpec) (outs : List (String × Nat × Bool))
    (hperm : outs.Perm (specs.map process_host_endpoints)) :
    streamTally outs =
      ((specs.filter (fun h => !h.hostRaises)).length,
       (specs.filter (fun h => h.hostRaises)).length,
       ((specs.filter (fun h => !h.hostRaises)).map hostEmitCount).sum) ∧
    (specs.filter (fun h => !h.hostRaises)).length +
        (specs.filter (fun h => h.hostRaises)).length = specs.length := by
  constructor
  · rw [← tally_map_process, streamTally_eq, streamTally_eq,
      hperm.countP_eq, hperm.countP_eq, ((hperm.filter _).map _).sum_eq]
  · exact filter_length_split specs

/-- Claim C10 (implicit): every record returned by the job-polling strategy
has its severity field set to the constant `"warn"`, whatever the original
entry's severity casing was; the original severity text survives only as
the prefix of the composite message. -/
theorem claim_C10 (sub : Element) (resp : Option String → Nat → Element)
    (hostv : String) (e : PAEvent)
    (he : e ∈ custom_GET_api_threat_traffic sub resp hostv) :
    e.severity = "warn" ∧
    ∃ en : Element, keepEntry en = true ∧ e = mkEventFrom hostv en ∧
      e.message = findtextD en "severity" "" ++ " :: [" ++
        ((attribGet en "logid").getD "") ++ "] " ++ findtextD en "type" "" ++ " - " ++
        pyCapitalize (findtextD en "subtype" "") ++ " : " ++
        findtextD en "threatid" "" ++ " (" ++ findtextD en "direction" "" ++ " " ++
        findtextD en "src" "" ++ " -> " ++ findtextD en "dst" "" ++ ")" := by
  rw [custom_eq_flatten] at he
  obtain ⟨l, hl, hel⟩ := List.mem_flatten.mp he
  obtain ⟨j, hj, rfl⟩ := List.mem_map.mp hl
  rw [jobContribution] at hel
  cases hf : firstFin (resp j) with
  | none => rw [hf] at hel; simp at hel
  | some i =>
    rw [hf] at hel
    dsimp only at hel
    rw [processEntries_eq] at hel
    obtain ⟨en, hen, rfl⟩ := List.mem_map.mp hel
    have hk : keepEntry en = true := (List.mem_filter.mp hen).2
    exact ⟨rfl, en, hk, rfl, rfl⟩

theorem leaf_elem_to_dict (e : Element) (t : String) (ha : e.attrib = [])
    (hc : e.children = []) (ht : e.text = some t) (hs : pyStrip t ≠ "") :
    element_to_dict e = coerceText (pyStrip t) := by
  rw [element_to_dict_eq]
  unfold elementBody
  rw [hc, childFold_nil, ht]
  simp [attrNode, ha, dictUpdate, hs]

theorem roundtrip_path : ∀ (ps : List String) (e : Element), goodTree e = true →
    ∀ (lf : Element) (t : String), elemAtPath e ps = some lf → lf.attrib = [] →
      lf.children = [] → lf.text = some t → pyStrip t ≠ "" →
      jLookupPath (element_to_dict e) ps = some (coerceText (pyStrip t))
  | [], e, hg, lf, t, hpath, ha, hc, ht, hs => by
    rw [elemAtPath] at hpath
    obtain rfl : e = lf := by simpa using hpath
    rw [jLookupPath, leaf_elem_to_dict e t ha hc ht hs]
  | tg :: ts, e, hg, lf, t, hpath, ha, hc, ht, hs => by
    rw [elemAtPath] at hpath
    cases hfind : e.children.find? (fun c => c.tag == tg) with
    | none => rw [hfind] at hpath; simp at hpath
    | some c =>
      rw [hfind] at hpath
      obtain ⟨hnd, hnotext, hgl⟩ := goodTree_parts e hg
      have hmem : c ∈ e.children := List.mem_of_find?_eq_some hfind
      have hct : c.tag = tg := by simpa using List.find?_some hfind
      have hfil : e.children.filter (fun x => x.tag == tg) = [c] :=
        filter_eq_single_of_nodup _ _ hnd _ hfind
      have hcf : dictLookup (childFold e.children []) tg
          = some (element_to_dict c) := by
        rw [childFold_lookup, hfil]
        rfl
      have htg : tg ≠ "#text" := hct ▸ hnotext c hmem
      obtain ⟨node, h1, h2⟩ := element_to_dict_obj_lookup e tg htg _ hcf
      rw [h1, jLookupPath, h2]
      exact roundtrip_path ts c (goodTreeL_mem _ hgl c hmem) lf t hpath ha hc ht hs

/-- Claim C4: a leaf element (no attributes, no children) with non-blank
text converts to its trimmed text coerced integer-first, float-second,
string-last; consequently, in a document with unique sibling tags, the
value found at a leaf's path in the conversion is exactly that coercion of
the leaf's trimmed text (numeric leaves round-trip as numbers, string
leaves as the same string). -/
theorem claim_C4 :
    (∀ (e : Element) (t : String), e.attrib = [] → e.children = [] →
      e.text = some t → pyStrip t ≠ "" →
      ((∀ n : Int, pyInt (pyStrip t) = some n → element_to_dict e = JVal.int n) ∧
       (pyInt (pyStrip t) = none →
         ∀ f : PyFloat, pyFloat (pyStrip t) = some f →
           element_to_dict e = JVal.float f) ∧
       (pyInt (pyStrip t) = none → pyFloat (pyStrip t) = none →
         element_to_dict e = JVal.str (pyStrip t)))) ∧
    (∀ e : Element, goodTree e = true →
      ∀ (ps : List String) (lf : Element) (t : String),
        elemAtPath e ps = some lf → lf.attrib = [] → lf.children = [] →
        lf.text = some t → pyStrip t ≠ "" →
        jLookupPath (element_to_dict e) ps = some (coerceText (pyStrip t))) := by
  constructor
  · intro e t ha hc ht hs
    have hleaf := leaf_elem_to_dict e t ha hc ht hs
    refine ⟨?_, ?_, ?_⟩
    · intro n hn
      rw [hleaf, coerceText, hn]
    · intro hn f hf
      rw [hleaf, coerceText, hn, hf]
    · intro hn hf
      rw [hleaf, coerceText, hn, hf]
  · intro e hg ps lf t hpath ha hc ht hs
    exact roundtrip_path ps e hg lf t hpath ha hc ht hs

/-- Claim C9 is false on the code: converting `<r><a/></r>` yields the
mapping `{"a": null}` — the empty element's key does appear in its parent's
converted mapping (with a null value), it is not omitted. -/
theorem claim_C9_counterexample :
    element_to_dict (Element.mk "r" [] none [Element.mk "a" [] none []]) =
      JVal.obj [("a", JVal.null)] ∧
    dictLookup [("a", JVal.null)] "a" = some JVal.null := by
  have hinner : element_to_dict (Element.mk "a" [] none []) = JVal.null := by
    rw [element_to_dict_eq,
      show (Element.mk "a" [] none []).children = [] from rfl, childFold_nil]
    rfl
  constructor
  · rw [element_to_dict_eq,
      show (Element.mk "r" [] none [Element.mk "a" [] none []]).children
        = [Element.mk "a" [] none []] from rfl,
      childFold_cons, childFold_nil, hinner]
    rfl
  · rfl

/-- Claim C9, amended: an element with no attributes, no children and no
non-blank text converts to the null value, and its key still appears in its
parent's converted mapping, bound to null (shown here for a non-repeated
tag). -/
theorem claim_C9_amended :
    (∀ e : Element, e.attrib = [] → e.children = [] →
      (∀ t, e.text = some t → pyStrip t = "") → element_to_dict e = JVal.null) ∧
    (∀ parent c : Element, c ∈ parent.children → c.attrib = [] →
      c.children = [] → c.text = none → c.tag ≠ "#text" →
      parent.children.filter (fun x => x.tag == c.tag) = [c] →
      ∃ node, element_to_dict parent = JVal.obj node ∧
        dictLookup node c.tag = some JVal.null) := by
  have hnull : ∀ e : Element, e.attrib = [] → e.children = [] →
      (∀ t, e.text = some t → pyStrip t = "") → element_to_dict e = JVal.null := by
    intro e ha hc ht
    rw [element_to_dict_eq]
    unfold elementBody
    rw [hc, childFold_nil]
    cases htx : e.text with
    | none => simp [attrNode, ha, dictUpdate]
    | some t =>
      have hst : pyStrip t = "" := ht t htx
      simp [attrNode, ha, dictUpdate, hst]
  constructor
  · exact hnull
  · intro parent c hmem ha hc ht htag hfil
    have hcnull : element_to_dict c = JVal.null := by
      refine hnull c ha hc ?_
      intro t h
      rw [ht] at h
      cases h
    have hcf : dictLookup (childFold parent.children []) c.tag
        = some JVal.null := by
      rw [childFold_lookup, hfil]
      simp [hcnull, jAppend, dictLookup]
    exact element_to_dict_obj_lookup parent c.tag htag _ hcf

theorem descAllL_nil : descAllL [] = [] := by rw [descAllL]

theorem descAllL_cons (c : Element) (cs : List Element) :
    descAllL (c :: cs) = c :: (descAllL c.children ++ descAllL cs) := by rw [descAllL]

theorem descAllF_eq : ∀ (f : Nat) (cs : List Element), sizeOf cs ≤ f →
    descAllF f cs = descAllL cs
  | 0, [], _ => by rw [descAllF, descAllL_nil]
  | 0, c :: cs, h => by
    simp only [List.cons.sizeOf_spec] at h
    omega
  | f + 1, [], _ => by rw [descAllF, descAllL_nil]
  | f + 1, c :: cs, h => by
    simp only [List.cons.sizeOf_spec] at h
    have h1 : sizeOf c.children ≤ f := by
      have := Element.sizeOf_children_lt c
      omega
    have h2 : sizeOf cs ≤ f := by omega
    rw [descAllF, descAllL_cons, descAllF_eq f c.children h1, descAllF_eq f cs h2]

theorem iterTagL_nil (t : String) : iterTagL [] t = [] := by rw [iterTagL]

theorem iterTagL_cons (c : Element) (cs : List Element) (t : String) :
    iterTagL (c :: cs) t =
      ((if c.tag = t then [c] else []) ++ iterTagL c.children t) ++ iterTagL cs t := by
  rw [iterTagL]

theorem iterTagF_eq : ∀ (f : Nat) (cs : List Element) (t : String), sizeOf cs ≤ f →
    iterTagF f cs t = iterTagL cs t
  | 0, [], t, _ => by rw [iterTagF, iterTagL_nil]
  | 0, c :: cs, t, h => by
    simp only [List.cons.sizeOf_spec] at h
    omega
  | f + 1, [], t, _ => by rw [iterTagF, iterTagL_nil]
  | f + 1, c :: cs, t, h => by
    simp only [List.cons.sizeOf_spec] at h
    have h1 : sizeOf c.children ≤ f := by
      have := Element.sizeOf_children_lt c
      omega
    have h2 : sizeOf cs ≤ f := by omega
    rw [iterTagF, iterTagL_cons, iterTagF_eq f c.children t h1, iterTagF_eq f cs t h2]

theorem iterTag_eq_iterTagF (e : Element) (t : String) (f : Nat)
    (h : sizeOf e.children ≤ f) :
    iterTag e t = (if e.tag = t then [e] else []) ++ iterTagF f e.children t := by
  rw [iterTag, iterTagF_eq f e.children t h]

theorem descWithPaths_nil (pp : String) : descWithPaths pp [] = [] := by
  rw [descWithPaths]

theorem descWithPaths_cons (pp : String) (c : Element) (cs : List Element) :
    descWithPaths pp (c :: cs) =
      ((if pp = "" then c.tag else pp ++ "." ++ c.tag), c) ::
        (descWithPaths (if pp = "" then c.tag else pp ++ "." ++ c.tag) c.children ++
          descWithPaths pp cs) := by
  rw [descWithPaths]

theorem descWithPathsF_eq : ∀ (f : Nat) (pp : String) (cs : List Element),
    sizeOf cs ≤ f → descWithPathsF f pp cs = descWithPaths pp cs
  | 0, pp, [], _ => by rw [descWithPathsF, descWithPaths_nil]
  | 0, pp, c :: cs, h => by
    simp only [List.cons.sizeOf_spec] at h
    omega
  | f + 1, pp, [], _ => by rw [descWithPathsF, descWithPaths_nil]
  | f + 1, pp, c :: cs, h => by
    simp only [List.cons.sizeOf_spec] at h
    have h1 : sizeOf c.children ≤ f := by
      have := Element.sizeOf_children_lt c
      omega
    have h2 : sizeOf cs ≤ f := by omega
    rw [descWithPathsF, descWithPaths_cons,
      descWithPathsF_eq f _ c.children h1, descWithPathsF_eq f pp cs h2]

mutual

theorem element_to_dictF_eq : ∀ (f : Nat) (e : Element), sizeOf e ≤ f →
    element_to_dictF f e = element_to_dict e
  | 0, e, h => by
    exfalso
    cases e with
    | mk t a tx cs =>
      simp only [Element.mk.sizeOf_spec] at h
      omega
  | f + 1, e, h => by
    have h1 : sizeOf e.children ≤ f := by
      have := Element.sizeOf_children_lt e
      omega
    rw [element_to_dictF, childFoldF_eq f e.children [] h1, ← element_to_dict_eq]

theorem childFoldF_eq : ∀ (f : Nat) (cs : List Element)
    (d : List (String × JVal)), sizeOf cs ≤ f → childFoldF f cs d = childFold cs d
  | 0, [], d, _ => by rw [childFoldF, childFold_nil]
  | 0, c :: cs, d, h => by
    simp only [List.cons.sizeOf_spec] at h
    omega
  | f + 1, [], d, _ => by rw [childFoldF, childFold_nil]
  | f + 1, c :: cs, d, h => by
    simp only [List.cons.sizeOf_spec] at h
    have h1 : sizeOf c ≤ f := by omega
    have h2 : sizeOf cs ≤ f := by omega
    rw [childFoldF, childFold_cons, element_to_dictF_eq f c h1, childFoldF_eq f cs _ h2]

end

theorem goodTreeL_nil : goodTreeL [] = true := by rw [goodTreeL]

theorem goodTreeL_cons (c : Element) (cs : List Element) :
    goodTreeL (c :: cs) = (goodTree c && goodTreeL cs) := by rw [goodTreeL]

mutual

theorem goodTreeF_eq : ∀ (f : Nat) (e : Element), sizeOf e ≤ f →
    goodTreeF f e = goodTree e
  | 0, e, h => by
    exfalso
    cases e with
    | mk t a tx cs =>
      simp only [Element.mk.sizeOf_spec] at h
      omega
  | f + 1, e, h => by
    have h1 : sizeOf e.children ≤ f := by
      have := Element.sizeOf_children_lt e
      omega
    rw [goodTreeF, goodTreeF.goodTreeLF_eq f e.children h1, goodTree]

theorem goodTreeF.goodTreeLF_eq : ∀ (f : Nat) (cs : List Element), sizeOf cs ≤ f →
    goodTreeF.goodTreeLF f cs = goodTreeL cs
  | 0, [], h => by
    simp only [List.nil.sizeOf_spec] at h
    omega
  | 0, c :: cs, h => by
    simp only [List.cons.sizeOf_spec] at h
    omega
  | f + 1, [], _ => by rw [goodTreeF.goodTreeLF, goodTreeL_nil]
  | f + 1, c :: cs, h => by
    simp only [List.cons.sizeOf_spec] at h
    have h1 : sizeOf c ≤ f := by omega
    have h2 : sizeOf cs ≤ f := by omega
    rw [goodTreeF.goodTreeLF, goodTreeL_cons, goodTreeF_eq f c h1,
      goodTreeF.goodTreeLF_eq f cs h2]

end

theorem sampleStatus : statusOf finResp = some "FIN" := by
  rw [statusOf, findtextJobStatus, ← descAllF_eq 100000 finResp.children (by decide)]
  decide

theorem sampleIterTag : iterTag finResp "entry" = [entryHigh, entryLow] := by
  rw [iterTag_eq_iterTagF finResp "entry" 100000 (by decide)]
  rfl

theorem sampleJobIds : jobIdsOf subOneJob = [some "9"] := by
  rw [jobIdsOf, iterTag_eq_iterTagF subOneJob "job" 100000 (by decide)]
  rfl

theorem sampleFirstFin : firstFin (respFin (some "9")) = some 0 := by
  rw [firstFin,
    show (fun i => decide (statusOf (respFin (some "9") i) = some "FIN")) =
      (fun _ : Nat => true) from
      funext (fun i => by
        rw [show respFin (some "9") i = finResp from rfl, sampleStatus]
        rfl)]
  rfl

theorem sampleProcessEntries : processEntries finResp "10.0.0.5" = [eventHigh] := by
  rw [processEntries_eq, sampleIterTag]
  rw [List.filter_cons_of_pos (by decide), List.filter_cons_of_neg (by decide),
    List.filter_nil, List.map_cons, List.map_nil,
    show mkEventFrom "10.0.0.5" entryHigh = eventHigh from by decide]

theorem sampleCustomEval :
    custom_GET_api_threat_traffic subOneJob respFin "10.0.0.5" = [eventHigh] := by
  rw [custom_eq_flatten, sampleJobIds, List.map_cons, List.map_nil,
    jobContribution, sampleFirstFin]
  dsimp only
  rw [show respFin (some "9") 0 = finResp from rfl, sampleProcessEntries]
  rfl

/-- Witness for claim C2 at the sample finished job: exactly the
high-severity entry is kept and the low-severity entry is dropped. -/
theorem claim_C2_witness :
    processEntries finResp "10.0.0.5" = [eventHigh] ∧
    keepEntry entryLow = false ∧ keepEntry entryHigh = true := by
  have h := claim_C2 finResp "10.0.0.5"
  refine ⟨?_, ?_, by decide⟩
  · rw [h.1, sampleIterTag]
    rw [List.filter_cons_of_pos (by decide), List.filter_cons_of_neg (by decide),
      List.filter_nil, List.map_cons, List.map_nil,
      show mkEventFrom "10.0.0.5" entryHigh = eventHigh from by decide]
  · exact h.2.2.2 entryLow (by decide)

/-- Witness for claim C3 at `<r><a>1</a><a>2</a></r>`: the value under
`"a"` is the two-element list `[1, 2]`. -/
theorem claim_C3_witness :
    ∃ node, element_to_dict rDup = JVal.obj node ∧
      dictLookup node "a" = some (JVal.arr [JVal.int 1, JVal.int 2]) := by
  obtain ⟨node, h1, h2, h3⟩ := claim_C3 rDup "a" (by decide) (by decide)
  refine ⟨node, h1, ?_⟩
  rw [h2]
  have ha1 : element_to_dict (Element.mk "a" [] (some "1") []) = JVal.int 1 := by
    rw [leaf_elem_to_dict (Element.mk "a" [] (some "1") []) "1" rfl rfl rfl (by decide)]
    rfl
  have ha2 : element_to_dict (Element.mk "a" [] (some "2") []) = JVal.int 2 := by
    rw [leaf_elem_to_dict (Element.mk "a" [] (some "2") []) "2" rfl rfl rfl (by decide)]
    rfl
  rw [show rDup.children.filter (fun c => c.tag == "a") =
    [Element.mk "a" [] (some "1") [], Element.mk "a" [] (some "2") []] from rfl]
  rw [List.map_cons, List.map_cons, List.map_nil, ha1, ha2]

/-- Witness for claim C4: the numeric leaf at path system → cpu round-trips
as the number 15.5, and a bare integer leaf converts to an integer. -/
theorem claim_C4_witness :
    jLookupPath (element_to_dict tEx) ["system", "cpu"] =
      some (JVal.float (PyFloat.finite (floatVal 15 5 1 0))) ∧
    element_to_dict (Element.mk "n" [] (some "42") []) = JVal.int 42 := by
  have h := claim_C4
  constructor
  · have hg : goodTree tEx = true := by
      rw [← goodTreeF_eq 100000 tEx (by decide)]
      rfl
    have hrt := h.2 tEx hg ["system", "cpu"] (Element.mk "cpu" [] (some "15.5") [])
      "15.5" rfl rfl rfl rfl (by decide)
    rw [hrt]
    rfl
  · exact (h.1 (Element.mk "n" [] (some "42") []) "42" rfl rfl rfl (by decide)).1
      42 (by rfl)

/-- Witness for claim C5: the sample document holds a metric at path
`system.cpu` (and the iff direction used applies the claim theorem). -/
theorem claim_C5_witness :
    dictLookup (xml_to_metrics_tree mEx "ep" "h") ("metric_name:" ++ "system.cpu")
      ≠ none := by
  refine (claim_C5 mEx "ep" "h" "system.cpu").mpr ?_
  refine ⟨("system.cpu", Element.mk "cpu" [] (some "15.2") []), ?_, rfl, by decide⟩
  have hd : descWithPaths "" mEx.children =
      [("system", Element.mk "system" [] none
          [Element.mk "cpu" [] (some "15.2") [], Element.mk "name" [] (some "fw") []]),
       ("system.cpu", Element.mk "cpu" [] (some "15.2") []),
       ("system.name", Element.mk "name" [] (some "fw") [])] := by
    rw [← descWithPathsF_eq 100000 "" mEx.children (by decide)]
    rfl
  rw [hd]
  exact List.Mem.tail _ (List.Mem.head _)

set_option maxRecDepth 100000 in
/-- Witness for claim C6 at the concrete non-markup input `"{"`. -/
theorem claim_C6_witness :
    ET_fromstring "\x7b" = Except.error "syntax error" ∧
    xml_to_json "\x7b" "ep" "h" =
      [("endpoint", JVal.str "ep"), ("host", JVal.str "h"),
       ("error", JVal.str "XML parsing failed: syntax error")] ∧
    xml_to_metrics "\x7b" "ep" "h" = [("endpoint", JVal.str "ep"), ("host", JVal.str "h")] ∧
    dictLookup (xml_to_json "\x7b" "ep" "h") "data" = none := by
  have hp : ET_fromstring "\x7b" = Except.error "syntax error" := by rfl
  have h := claim_C6 "\x7b" "ep" "h" "syntax error" hp
  exact ⟨hp, h.1, h.2.2, h.2.1⟩

/-- Witness for claim C7 on a three-host run with one raising host, the
outcomes arriving in a different order. -/
theorem claim_C7_witness : streamTally outs3 = (2, 1, 2) := by
  have h := claim_C7 specs3 outs3 (by decide)
  rw [h.1]
  decide

/-- Witness for claim C9 (amended) at a concrete empty child. -/
theorem claim_C9_witness :
    element_to_dict (Element.mk "b" [] none []) = JVal.null ∧
    ∃ node,
      element_to_dict (Element.mk "p" [] none [Element.mk "b" [] none []]) =
        JVal.obj node ∧
      dictLookup node "b" = some JVal.null := by
  have h := claim_C9_amended
  refine ⟨h.1 (Element.mk "b" [] none []) rfl rfl (by intro t ht; cases ht), ?_⟩
  exact h.2 (Element.mk "p" [] none [Element.mk "b" [] none []])
    (Element.mk "b" [] none []) (List.Mem.head _) rfl rfl rfl (by decide) rfl

/-- Witness for claim C10 on the sample run: the kept event's severity is
the constant `"warn"`. -/
theorem claim_C10_witness :
    eventHigh ∈ custom_GET_api_threat_traffic subOneJob respFin "10.0.0.5" ∧
    eventHigh.severity = "warn" := by
  have hmem : eventHigh ∈ custom_GET_api_threat_traffic subOneJob respFin "10.0.0.5" := by
    rw [sampleCustomEval]
    exact List.Mem.head _
  exact ⟨hmem, (claim_C10 subOneJob respFin "10.0.0.5" eventHigh hmem).1⟩

set_option maxRecDepth 100000 in
/-- Claim C8 fails on the code: evaluating the events-mode record path of
`process_host_endpoints` at a record returned by the job-polling strategy
shows the record is not emitted as-is — it is JSON-serialized, fed through
the XML conversion, and comes out as a parse-error record that has lost
every field of the original event (no happenedOn, no message, no data). -/
theorem claim_C8 :
    eventsPayloads [DataRecord.ev threatSampleEvent] "pa_threat_logs" "10.0.0.5" =
      [[("endpoint", JVal.str "pa_threat_logs"), ("host", JVal.str "10.0.0.5"),
        ("error", JVal.str "XML parsing failed: syntax error")]] ∧
    dictLookup (xml_to_json (recordText (DataRecord.ev threatSampleEvent))
      "pa_threat_logs" "10.0.0.5") "happenedOn" = none ∧
    dictLookup (xml_to_json (recordText (DataRecord.ev threatSampleEvent))
      "pa_threat_logs" "10.0.0.5") "message" = none ∧
    dictLookup (xml_to_json (recordText (DataRecord.ev threatSampleEvent))
      "pa_threat_logs" "10.0.0.5") "data" = none := by
  refine ⟨by rfl, by rfl, by rfl, by rfl⟩

/-- Witness for claim C1 on the sample run: the instantiated decomposition
and the poll bound at the sample job. -/
theorem claim_C1_witness :
    custom_GET_api_threat_traffic subOneJob respFin "10.0.0.5" =
      ((jobIdsOf subOneJob).map (jobContribution respFin "10.0.0.5")).flatten ∧
    (pollAux (respFin (some "9")) "10.0.0.5" 0 11).2 ≤ 11 := by
  exact ⟨(claim_C1 subOneJob respFin "10.0.0.5").1,
    (claim_C1 subOneJob respFin "10.0.0.5").2 (some "9")⟩
